import Mathlib

/-
  Verification development for the pyvsphere bulk-VM-operation orchestrator.

  The Python sources embedded here are:
    * pyvsphere/vim25.py  -- `Vim.update_many_objects` (the batched status
      refresher) and the exception classes,
    * pyvsphere/vmops.py  -- the workflow generators (`clone_vm`,
      `delete_vm`, `power_on_off_vm`, `create_snapshot`,
      `revert_to_snapshot`) together with the helpers `_get_base_vm` and
      `place_vm`, and the scheduler `run_on_instances`.

  Python dicts whose keys/values only matter as opaque data are modelled as
  association lists; Python dict assignment (replace the binding in place,
  append when absent) is `assocSet`.  Remote calls are modelled by explicit
  environment parameters: a value the remote side would produce is an input
  of the embedded function, and every *mutating* remote call the code issues
  is recorded in an output trace.
-/

set_option maxRecDepth 4000

namespace PyVsphere

/-! ### Association lists: the model of Python dicts -/

def assocSet {α β : Type} [DecidableEq α] (k : α) (v : β) : List (α × β) → List (α × β)
  | [] => [(k, v)]
  | p :: rest => if p.1 = k then (k, v) :: rest else p :: assocSet k v rest

def assocGet {α β : Type} [DecidableEq α] (k : α) : List (α × β) → Option β
  | [] => none
  | p :: rest => if p.1 = k then some p.2 else assocGet k rest

def listStartsWith : List Char → List Char → Bool
  | [], _ => true
  | _ :: _, [] => false
  | a :: as, b :: bs => a = b && listStartsWith as bs

def listHasNeedle (needle : List Char) : List Char → Bool
  | [] => listStartsWith needle []
  | b :: bs => listStartsWith needle (b :: bs) || listHasNeedle needle bs

/-- `needle in haystack` on Python strings (substring containment). -/
def strContains (haystack needle : String) : Bool :=
  listHasNeedle needle.toList haystack.toList

/-! ### vim25.py: `Vim.update_many_objects` (lines 121-169)

The remote `RetrieveProperties` call is the parameter `invokeRetrieve`; it
receives the managed-object references that were put into the object set and
returns `none` (the call produced nothing) or a list of object contents.
A content carries the reference it refreshes plus its property set. -/

structure MORef where
  value : String
deriving DecidableEq

structure MObj where
  mor : MORef
  props : List (String × String)
deriving DecidableEq

structure ObjContent where
  obj : MORef
  propSet : List (String × String)
deriving DecidableEq

/-- The `object_set` built by `update_many_objects`: one reference per
non-empty ("truthy") entry, in mapping order. -/
def umoObjectSet (objects : List (String × Option MObj)) : List MORef :=
  objects.filterMap (fun p => p.2.map (·.mor))

/-- The `object_map` dict of `update_many_objects`: reference value back to
the mapping key, for non-empty entries. -/
def umoObjectMap (objects : List (String × Option MObj)) : List (String × String) :=
  objects.foldl
    (fun m p => match p.2 with
      | some o => assocSet o.mor.value p.1 m
      | none => m) []

/-- The initial `updated_objects` dict: the empty entries, returned as
supplied. -/
def umoBase (objects : List (String × Option MObj)) : List (String × Option MObj) :=
  objects.filterMap (fun p => if p.2.isNone then some (p.1, none) else none)

/-- The write-back loop over the returned object contents, updating the
`updated_objects` dict in order.  A content whose reference value is not a
key of `object_map` would raise `KeyError` in Python; that is the `none`
result. -/
def umoFold (object_map : List (String × String)) :
    List ObjContent → List (String × Option MObj) → Option (List (String × Option MObj))
  | [], m => some m
  | c :: rest, m =>
    match assocGet c.obj.value object_map with
    | none => none
    | some key => umoFold object_map rest (assocSet key (some ⟨c.obj, c.propSet⟩) m)

/-- `update_many_objects` from vim25.py.  Empty ("falsy") entries are put in
the result unchanged and are not requested from the remote side; a missing
(`None`) or empty reply, or one whose length differs from the total number
of entries, is a soft failure returning `(False, objects)`; on success each
content is written back through `object_map` keyed by the reference value. -/
def update_many_objects (invokeRetrieve : List MORef → Option (List ObjContent))
    (objects : List (String × Option MObj)) :
    Option (Bool × List (String × Option MObj)) :=
  match invokeRetrieve (umoObjectSet objects) with
  | none => some (false, objects)
  | some contents =>
    if contents.length = 0 ∨ contents.length ≠ objects.length then
      some (false, objects)
    else
      (umoFold (umoObjectMap objects) contents (umoBase objects)).map
        (fun m => (true, m))

/-- Concrete run discharging the hypotheses of the C4 theorem: one empty
entry, one real handle, and a remote reply with zero contents. -/
def updObjectsEx : List (String × Option MObj) :=
  [("a", none), ("b", some ⟨⟨"m1"⟩, [("name", "x")]⟩)]

def updInvokeEx : List MORef → Option (List ObjContent) := fun _ => some []

/-! ### vmops.py: task and guest snapshots

The workflow generators only inspect tasks through the local `done`,
`got_ip` and `guest_tool_running` predicates; a task snapshot is the
`info` attribute (absent until the first refresh), a guest snapshot is
the `summary.guest` view. -/

structure TaskInfo where
  state : String
  errorMessage : String := ""
  errorFault : String := ""
deriving DecidableEq

structure TaskObj where
  info : Option TaskInfo := none
deriving DecidableEq

/-- The local `done(task)` helper of every generator in vmops.py:
`hasattr(task, 'info') and task.info.state in ('success', 'error')`. -/
def taskDone (t : TaskObj) : Bool :=
  match t.info with
  | some i => i.state = "success" || i.state = "error"
  | none => false

structure GuestSnap where
  hasSummary : Bool := true
  toolsStatus : Option String := none
  ipAddress : Option String := none
deriving DecidableEq

/-- `guest_tool_running(task)` of `clone_vm`. -/
def guest_tool_running (v : GuestSnap) : Bool :=
  v.hasSummary && v.toolsStatus = some "guestToolsRunning"

/-- `got_ip(task)`: the summary is present and `ipAddress` is truthy
(`None` and the empty string are falsy in Python). -/
def gotIp (v : GuestSnap) : Option String :=
  if v.hasSummary then
    match v.ipAddress with
    | some s => if s = "" then none else some s
    | none => none
  else none

/-! ### vmops.py: datastore placement (`place_vm`, lines 101-113, and
`_get_base_vm`, lines 39-64) -/

structure DStore where
  name : String
  freeSpace : Int
deriving DecidableEq

/-- The base VM view assembled by `_get_base_vm`: total committed size and
the available datastores (after the substring filter). -/
structure BaseVmView where
  size : Int
  available_datastores : List DStore
deriving DecidableEq

/-- Descending free-space order used by `sorted(..., key=freeSpace,
reverse=True)`. -/
def dsGE (a b : DStore) : Prop := b.freeSpace ≤ a.freeSpace

instance : DecidableRel dsGE := fun a b => inferInstanceAs (Decidable (b.freeSpace ≤ a.freeSpace))

instance : IsTotal DStore dsGE := ⟨fun a b => le_total b.freeSpace a.freeSpace⟩

instance : IsTrans DStore dsGE := ⟨fun _ _ _ h1 h2 => le_trans h2 h1⟩

/-- `possible_targets` of `place_vm`: the datastores with strictly more
free space than the base VM size, sorted by free space, largest first. -/
def possibleTargets (b : BaseVmView) : List DStore :=
  List.insertionSort dsGE (b.available_datastores.filter (fun x => b.size < x.freeSpace))

/-- The error taxonomy raised by the workflows (vim25.py exception classes
plus Python `AssertionError` for bare asserts).  vim25.py lines 433, 441
and 446 say `raise InvalidParameter(...)`, a name that is never defined in
that module — at runtime those sites raise `NameError`; they are kept
apart as `nameError`. -/
inductive WfFail where
  | invalidParameter (msg : String)
  | taskFailed (msg : String)
  | timeout (msg : String)
  | assertionError (msg : String)
  | nameError (msg : String)
deriving DecidableEq

/-- The candidate picked by `place_vm`: `possible_targets[0]` for
`most-space` (the sort is descending), `random.choice(possible_targets)`
for `random` (the drawn index taken modulo the candidate count). -/
def placeTarget (choice : Nat) (placement_strategy : String) (b : BaseVmView)
    (h : 0 < (possibleTargets b).length) : DStore :=
  if placement_strategy = "most-space" then (possibleTargets b).get ⟨0, h⟩
  else (possibleTargets b).get ⟨choice % (possibleTargets b).length, Nat.mod_lt _ h⟩

/-- `place_vm` from `clone_vm` (vmops.py lines 101-113).  The Python code
mutates the chosen datastore object in place
(`target.summary.freeSpace -= base_vm.size`), which is visible through the
shared `available_datastores` list of the cached base VM; the pure model
returns the chosen candidate (as selected, before the decrement) together
with the updated view. -/
def place_vm (choice : Nat) (placement_strategy : String) (b : BaseVmView) :
    Except WfFail (DStore × BaseVmView) :=
  if placement_strategy = "random" ∨ placement_strategy = "most-space" then
    if h : 0 < (possibleTargets b).length then
      .ok (placeTarget choice placement_strategy b h,
        { b with available_datastores :=
          b.available_datastores.map (fun d =>
            if d.name = (placeTarget choice placement_strategy b h).name then
              { d with freeSpace := d.freeSpace - b.size }
            else d) })
    else .error (.invalidParameter "no suitable datastore found. Are they all low on space?")
  else .error (.assertionError "unknown placement strategy, must be either random or most-space")

/-! ### vmops.py: the workflow generators

Each generator is embedded as a function of an explicit environment: every
value the remote service would produce (lookup results, the successive
refreshed snapshots of an issued task, guest snapshots, the wall-clock
reading at each resumption) is a field of the environment.  A `while not
done(task): task = (yield task)` loop consumes the snapshot stream of that
task until a terminal one appears; an exhausted stream means the generator
would still be suspended (`WfResult.suspended`).  Mutating remote calls are
collected in a trace of invocation names, in issue order. -/

/-- Outcome of driving one workflow generator to quiescence. -/
inductive WfResult where
  | suspended
  | completed (ipv4 : Option String)
  | failed (f : WfFail)
deriving DecidableEq

/-- Result-and-trace state threading: a workflow computation takes the
mutating-call trace so far and returns the extended trace plus either a
value or an early termination. -/
def WfM (α : Type) : Type := List String → List String × Except WfResult α

def wfPure {α : Type} (a : α) : WfM α := fun tr => (tr, .ok a)

def wfBind {α β : Type} (m : WfM α) (f : α → WfM β) : WfM β := fun tr =>
  match m tr with
  | (tr1, .ok a) => f a tr1
  | (tr1, .error r) => (tr1, .error r)

/-- Record one mutating remote invocation. -/
def wfEmit (call : String) : WfM Unit := fun tr => (tr ++ [call], .ok ())

def wfFail {α : Type} (f : WfFail) : WfM α := fun tr => (tr, .error (.failed f))

def wfSuspend {α : Type} : WfM α := fun tr => (tr, .error .suspended)

def wfOfExcept {α : Type} : Except WfFail α → WfM α
  | .ok a => wfPure a
  | .error f => wfFail f

/-- Scan the snapshot stream of an issued task for the first terminal
(`done`) snapshot and return its `info`; an exhausted stream leaves the
generator suspended forever. -/
def waitDone : List TaskObj → Option TaskInfo
  | [] => none
  | t :: ts =>
    match t.info with
    | some i => if i.state = "success" || i.state = "error" then some i else waitDone ts
    | none => waitDone ts

def wfWaitDone (stream : List TaskObj) : WfM TaskInfo :=
  match waitDone stream with
  | some i => wfPure i
  | none => wfSuspend

/-- Python truthiness of an optional string (`None` and `''` are falsy). -/
def truthyS : Option String → Bool
  | some s => s ≠ ""
  | none => false

/-! #### `_get_base_vm` (vmops.py lines 39-64)

The per-`VmOperations` caches `_base_vm_cache` and
`_cluster_datastore_cache` only memoise these lookups inside one
orchestrator instance; a single workflow run sees the same values either
way, so the embedding computes the view directly from the lookups. -/

/-- `find_vm_by_name(base_vm_name, ['storage','summary'])` result: the
committed bytes of each entry of `storage.perDatastoreUsage`. -/
structure BaseVmRaw where
  perDatastoreCommitted : List Int
deriving DecidableEq

structure GetBaseEnv where
  /-- `find_vm_by_name(base_vm_name, ...)`: `none` when not found. -/
  findBaseVm : Option BaseVmRaw
  /-- `find_entities_by_type('Datastore', ...)`. -/
  datastores : List DStore
  /-- `_datastores_in_cluster`: the ClusterComputeResource lookup;
  `none` when the CCR does not exist. -/
  clusterDatastores : Option (List DStore)
deriving DecidableEq

/-- `sum([x.committed for x in base_vm.storage.perDatastoreUsage])`. -/
def baseSize (raw : BaseVmRaw) : Int :=
  raw.perDatastoreCommitted.foldl (· + ·) 0

/-- `_get_base_vm`: `.ok none` when the base VM does not exist (the caller
raises); otherwise the size is summed over the per-datastore usage, the
zero-size assert fires, and the datastore list (cluster-restricted when a
cluster is named) is filtered by substring with `datastore_filter`. -/
def get_base_vm (env : GetBaseEnv) (datastore_filter : String)
    (cluster : Option String) : Except WfFail (Option BaseVmView) :=
  match env.findBaseVm with
  | none => .ok none
  | some raw =>
    if baseSize raw ≤ 0 then
      .error (.assertionError "base vm size is zero? Very unlikely...")
    else
      match cluster with
      | some cname =>
        match env.clusterDatastores with
        | none => .error (.invalidParameter
            ("specified ClusterComputeResource " ++ cname ++ " not found"))
        | some ds => .ok (some ⟨baseSize raw,
            ds.filter (fun x => strContains x.name datastore_filter)⟩)
      | none =>
        .ok (some ⟨baseSize raw,
          env.datastores.filter (fun x => strContains x.name datastore_filter)⟩)

/-! #### Workflow parameter dictionaries -/

structure DiskCfg where
  size : Nat
  provisioning : String := "thin"
  mode : String := "persistent"
deriving DecidableEq

structure NicCfg where
  network : Option String
  nic_type : String := "vmxnet3"
deriving DecidableEq

structure HardwareCfg where
  ram : Option Nat := none
  cpus : Option Nat := none
  disks : List DiskCfg := []
  nics : List NicCfg := []
deriving DecidableEq

structure NetIf where
  name : String
  address : Option String
  netmask : Option String
deriving DecidableEq

/-- The `network` dict: the interface entries (everything except the
`gateway`, `username` and `password` keys) plus the optional gateway. -/
structure NetworkCfg where
  interfaces : List NetIf
  gateway : Option String := none
deriving DecidableEq

/-- The instance dict of a clone workflow, fields as read by `clone_vm`
(`instance.get` defaults applied). -/
structure Instance where
  vm_name : String
  base_vm_name : String
  datastore_filter : String := ""
  cluster : Option String := none
  datastore : Option String := none
  placement : String := "random"
  resource_pool : Option String := none
  folder : Option String := none
  hardware : Option HardwareCfg := none
  network : Option NetworkCfg := none
  username : Option String := none
  password : Option String := none
deriving DecidableEq

/-! #### `VirtualMachine.clone_vm_task` (vim25.py lines 404-465)

Only the parameter-resolution part can fail before the single mutating
`CloneVM_Task` invocation; the relocate/clone spec assembly is pure data
construction.  The initial `update_local_view` and the entity lookups are
non-mutating queries. -/

structure CloneTaskEnv where
  /-- `find_entity_by_name('Datastore', name)` when a datastore name (not
  an object) was supplied. -/
  datastoreByName : Bool
  /-- `find_entity_by_name('ResourcePool', name)` when a resource pool
  name was supplied. -/
  resourcePoolByName : Bool
  /-- `find_entity_by_name('ComputeResource', cluster, ...)`. -/
  computeResourceFound : Bool
  /-- `parent._type` of each entity returned by
  `find_entities_by_type('ResourcePool', ['parent'])`. -/
  rootResourcePoolParentTypes : List String
  /-- `FindByInventoryPath` on the requested folder. -/
  folderFound : Bool
deriving DecidableEq

/-- The resolution phase of `clone_vm_task`.  `datastoreIsObject` is true
when `clone_vm` passed the `place_vm` result (a managed object) rather
than a name from the instance dict.  `.ok` means the code reaches the
`CloneVM_Task` invocation. -/
def clone_vm_task_resolution (env : CloneTaskEnv) (inst : Instance)
    (datastoreIsObject : Bool) : Except WfFail Unit := do
  if ¬ (datastoreIsObject || env.datastoreByName) then
    throw (.assertionError "Datastore not set for the clone. The name may be incorrect")
  match inst.resource_pool with
  | some rp =>
    if ¬ env.resourcePoolByName then
      throw (.assertionError ("resource pool " ++ rp ++ " not found"))
  | none =>
    match inst.cluster with
    | some cname =>
      if ¬ env.computeResourceFound then
        throw (.nameError ("cluster " ++ cname ++ " not found"))
    | none =>
      if (env.rootResourcePoolParentTypes.filter
            (fun t => strContains t "ComputeResource")).length ≠ 1 then
        throw (.nameError
          "root resource pool could not be determined unambiguously, specify the cluster parameter")
  match inst.folder with
  | some f =>
    if ¬ env.folderFound then
      throw (.nameError ("specified target folder " ++ f ++ " not found"))
  | none => pure ()

/-! #### `clone_vm` (vmops.py lines 76-240) -/

structure CloneEnv where
  base : GetBaseEnv
  /-- nuke path: `find_vm_by_name(vm_name, ['summary'])`; carries the
  power state when the old VM exists. -/
  existingClone : Option String
  powerOffTask : List TaskObj
  deleteTask : List TaskObj
  /-- index drawn by `random.choice` in `place_vm`. -/
  choice : Nat
  cloneTaskEnv : CloneTaskEnv
  cloneTask : List TaskObj
  /-- `find_vm_by_name(vm_name)` after the clone completed. -/
  cloneFound : Bool
  reconfigTask : List TaskObj
  powerOnTask : List TaskObj
  /-- `clone.power_state()` after `update_local_view(['summary'])`. -/
  powerStateAfterOn : String
  /-- the `clone` object itself, first tested before any yield. -/
  toolInitial : GuestSnap
  /-- `time.time()` when the guest-tools wait starts. -/
  toolWaitStart : Int
  /-- per resumption: the refreshed snapshot and `time.time()`. -/
  toolWait : List (GuestSnap × Int)
  ipInitial : GuestSnap
  ipWait : List GuestSnap
  snapshotTask : List TaskObj
deriving DecidableEq

/-- The nuke-old block: power off (if on) and delete the pre-existing VM
with the same name.  Both waits treat `error` as merely terminal. -/
def cloneNukePhase (env : CloneEnv) (nuke_old : Bool) : WfM Unit :=
  if nuke_old then
    match env.existingClone with
    | some powerState =>
      wfBind
        (if powerState = "poweredOn" then
          wfBind (wfEmit "PowerOffVM_Task") (fun _ =>
          wfBind (wfWaitDone env.powerOffTask) (fun _ => wfPure ()))
        else wfPure ())
        (fun _ =>
          wfBind (wfEmit "Destroy_Task") (fun _ =>
          wfBind (wfWaitDone env.deleteTask) (fun _ => wfPure ())))
    | none => wfPure ()
  else wfPure ()

/-- Datastore selection: the explicitly named datastore wins, otherwise
`place_vm` runs with the instance placement strategy.  Returns whether the
datastore handed to `clone_vm_task` is an object. -/
def clonePlacePhase (env : CloneEnv) (inst : Instance) (base : BaseVmView) : WfM Bool :=
  match inst.datastore with
  | some _ => wfPure false
  | none => wfOfExcept ((place_vm env.choice inst.placement base).map (fun _ => true))

/-- The clone call and its wait; this is the only task wait in vmops.py
that checks `task.info.state != 'success'` and raises `TaskFailedError`
with the server-reported message. -/
def cloneClonePhase (env : CloneEnv) (inst : Instance) (dsIsObj : Bool) : WfM Unit :=
  wfBind (wfOfExcept (clone_vm_task_resolution env.cloneTaskEnv inst dsIsObj)) (fun _ =>
  wfBind (wfEmit "CloneVM_Task") (fun _ =>
  wfBind (wfWaitDone env.cloneTask) (fun i =>
  if i.state ≠ "success" then
    wfFail (.taskFailed ("CLONE(" ++ inst.vm_name ++ ") failed with error: " ++
      i.errorMessage ++ " Details: " ++ i.errorFault))
  else wfPure ())))

def cloneAssertFound (env : CloneEnv) (inst : Instance) : WfM Unit :=
  if env.cloneFound then wfPure ()
  else wfFail (.assertionError
    ("Could not find vm " ++ inst.vm_name ++ " after cloning. Must not happen. Ever."))

def diskSpecCheck (d : DiskCfg) : Except WfFail Unit :=
  if ¬ (d.provisioning = "thin" ∨ d.provisioning = "thick") then
    .error (.assertionError "disk provisioning must be on of thin, thick")
  else if ¬ (["persistent", "independent_persistent", "independent_nonpersistent",
      "nonpersistent", "undoable", "append"].contains d.mode) then
    .error (.assertionError "disk mode must be one of the VirtualDiskMode values")
  else .ok ()

def nicSpecCheck (n : NicCfg) : Except WfFail Unit :=
  if ¬ truthyS n.network then
    .error (.assertionError "network name must be specified for NICs")
  else if ¬ (["e1000", "pcnet32", "vmxnet2", "vmxnet3"].contains n.nic_type) then
    .error (.assertionError "nic_type must be one of e1000, pcnet32, vmxnet2, vmxnet3")
  else .ok ()

def checkEach {α : Type} (f : α → Except WfFail Unit) : List α → Except WfFail Unit
  | [] => .ok ()
  | a :: rest =>
    match f a with
    | .ok _ => checkEach f rest
    | .error e => .error e

/-- Hardware reconfiguration: build the device change spec (the disk and
NIC asserts from vmops.py lines 167/173 and vim25.py `spec_new_disk` /
`spec_new_nic`), then issue `ReconfigVM_Task` and wait; the task result is
not checked.  The model omits the controller/first-disk introspection of
`spec_new_disk`, which cannot fail on data reachable from the instance
dict alone. -/
def cloneReconfigPhase (env : CloneEnv) (inst : Instance) : WfM Unit :=
  match inst.hardware with
  | none => wfPure ()
  | some hw =>
    wfBind (wfOfExcept (checkEach diskSpecCheck hw.disks)) (fun _ =>
    wfBind (wfOfExcept (checkEach nicSpecCheck hw.nics)) (fun _ =>
    wfBind (wfEmit "ReconfigVM_Task") (fun _ =>
    wfBind (wfWaitDone env.reconfigTask) (fun _ => wfPure ()))))

/-- Power on and verify the refreshed power state (the task terminal
status itself is not inspected). -/
def clonePowerOnPhase (env : CloneEnv) (inst : Instance) : WfM Unit :=
  wfBind (wfEmit "PowerOnVM_Task") (fun _ =>
  wfBind (wfWaitDone env.powerOnTask) (fun _ =>
  if env.powerStateAfterOn ≠ "poweredOn" then
    wfFail (.taskFailed (inst.vm_name ++ " was not successfully powered on"))
  else wfPure ()))

/-- The interface loop of the network block: every interface must have a
truthy `address` and `netmask`, the `ifconfig` script is accumulated. -/
def buildIfScript (acc : String) : List NetIf → Except WfFail String
  | [] => .ok acc
  | i :: rest =>
    match i.address, i.netmask with
    | some a, some m =>
      if a = "" ∨ m = "" then
        .error (.invalidParameter
          "address and netmask need to be specified for network interface configurations")
      else
        buildIfScript (acc ++ "ifconfig " ++ i.name ++ " " ++ a ++ " netmask " ++ m) rest
    | _, _ =>
      .error (.invalidParameter
        "address and netmask need to be specified for network interface configurations")

/-- The guest-tools wait of the network block: the predicate is tested
once before the first yield (no clock check), then every resumption first
checks `time.time() - tool_wait_started > 60.0` and raises `TimeoutError`,
and only afterwards re-tests the predicate. -/
def waitToolsGo (t0 : Int) : List (GuestSnap × Int) → Except WfResult Unit
  | [] => .error .suspended
  | (v, now) :: rest =>
    if now - t0 > 60 then
      .error (.failed (.timeout "guest tools have not started in 60 seconds"))
    else if guest_tool_running v then .ok ()
    else waitToolsGo t0 rest

def waitTools (t0 : Int) (initial : GuestSnap) (stream : List (GuestSnap × Int)) :
    Except WfResult Unit :=
  if guest_tool_running initial then .ok () else waitToolsGo t0 stream

/-- Static-IP interface setup (vmops.py lines 202-227): credential and
interface validation, guest-tools bounded wait, then
`run_script_in_guest` (a sequence of mutating guest operations, recorded
as one trace entry). -/
def cloneNetworkPhase (env : CloneEnv) (inst : Instance) : WfM Unit :=
  match inst.network with
  | none => wfPure ()
  | some cfg =>
    if ¬ (truthyS inst.username && truthyS inst.password) then
      wfFail (.invalidParameter
        "cloud.username and cloud.password need to be specified for network interface setup")
    else
      wfBind (wfOfExcept (buildIfScript "" cfg.interfaces)) (fun _ =>
      wfBind (fun tr => (tr, (waitTools env.toolWaitStart env.toolInitial env.toolWait).map
        (fun _ => ()))) (fun _ =>
      wfBind (wfEmit "RunScriptInGuest") (fun _ => wfPure ())))

/-- `while not got_ip(task)` (vmops.py lines 229-234); the first test is
on the `clone` object itself. -/
def waitIpGo : List GuestSnap → Except WfResult String
  | [] => .error .suspended
  | v :: rest =>
    match gotIp v with
    | some ip => .ok ip
    | none => waitIpGo rest

def cloneIpPhase (env : CloneEnv) : WfM String :=
  match gotIp env.ipInitial with
  | some ip => wfPure ip
  | none => fun tr => (tr, waitIpGo env.ipWait)

/-- The final `create_snapshot_task('pristine', memory=True)` wait; the
task result is not checked. -/
def cloneSnapshotPhase (env : CloneEnv) : WfM Unit :=
  wfBind (wfEmit "CreateSnapshot_Task") (fun _ =>
  wfBind (wfWaitDone env.snapshotTask) (fun _ => wfPure ()))

/-- Everything up to and including power-on: base resolution (raising
`InvalidParameterError` when the base VM is missing), the optional
nuke-old block, datastore placement, the clone call and wait, the
post-clone lookup assert, optional reconfiguration, power-on. -/
def cloneLeadIn (env : CloneEnv) (inst : Instance) (nuke_old : Bool) : WfM Unit :=
  wfBind (wfOfExcept (get_base_vm env.base inst.datastore_filter inst.cluster)) (fun ob =>
  match ob with
  | none => wfFail (.invalidParameter
      ("base VM " ++ inst.base_vm_name ++
       " not found, check the cloud.base_vm_name property for " ++ inst.vm_name))
  | some base =>
    wfBind (cloneNukePhase env nuke_old) (fun _ =>
    wfBind (clonePlacePhase env inst base) (fun dsIsObj =>
    wfBind (cloneClonePhase env inst dsIsObj) (fun _ =>
    wfBind (cloneAssertFound env inst) (fun _ =>
    wfBind (cloneReconfigPhase env inst) (fun _ =>
    clonePowerOnPhase env inst))))))

/-- The tail of `clone_vm`: network setup, IP wait (the address is written
into the instance dict), baseline snapshot. -/
def cloneTail (env : CloneEnv) (inst : Instance) : WfM String :=
  wfBind (cloneNetworkPhase env inst) (fun _ =>
  wfBind (cloneIpPhase env) (fun ip =>
  wfBind (cloneSnapshotPhase env) (fun _ => wfPure ip)))

/-- `clone_vm` driven to quiescence: the trace of mutating remote calls
in issue order, and the outcome. -/
def clone_vm (env : CloneEnv) (inst : Instance) (nuke_old : Bool) :
    List String × WfResult :=
  match wfBind (cloneLeadIn env inst nuke_old) (fun _ => cloneTail env inst) [] with
  | (tr, .ok ip) => (tr, .completed (some ip))
  | (tr, .error r) => (tr, r)

/-! #### `delete_vm` (vmops.py lines 375-412) -/

structure DeleteEnv where
  /-- the `vm` entry of the instance dict or the fallback lookup. -/
  vmFound : Bool
  powerState : String
  powerOffTask : List TaskObj
  /-- `vm.power_state()` after `update_local_view(['summary'])`. -/
  powerStateAfterOff : String
  deleteTask : List TaskObj
deriving DecidableEq

/-- `delete_vm`: power off when powered on (verifying the refreshed power
state), then issue `Destroy_Task` and wait for a terminal status — the
terminal status itself is not inspected, so a task error still completes
the workflow. -/
def delete_vm (env : DeleteEnv) (vm_name : String) : List String × WfResult :=
  let m : WfM Unit :=
    if ¬ env.vmFound then
      wfFail (.invalidParameter
        ("VM " ++ vm_name ++ " not found in vSphere, something is terribly wrong here"))
    else
      wfBind
        (if env.powerState = "poweredOn" then
          wfBind (wfEmit "PowerOffVM_Task") (fun _ =>
          wfBind (wfWaitDone env.powerOffTask) (fun _ =>
          if env.powerStateAfterOff ≠ "poweredOff" then
            wfFail (.taskFailed (vm_name ++ " was not successfully powered off"))
          else wfPure ()))
        else wfPure ())
        (fun _ =>
          wfBind (wfEmit "Destroy_Task") (fun _ =>
          wfBind (wfWaitDone env.deleteTask) (fun _ => wfPure ())))
  match m [] with
  | (tr, .ok _) => (tr, .completed none)
  | (tr, .error r) => (tr, r)

/-! #### `power_on_off_vm` (vmops.py lines 332-373) -/

structure PowerEnv where
  vmFound : Bool
  powerState : String
  task : List TaskObj
  /-- power state after the post-task `update_local_view(['summary'])`. -/
  powerStateAfter : String
deriving DecidableEq

/-- `power_on_off_vm`: a power call is issued only when the observed state
is exactly `poweredOff` (for a power-on) or exactly `poweredOn` (for a
power-off); every other combination logs and completes without remote
mutation.  After a call the refreshed power state is verified. -/
def power_on_off_vm (env : PowerEnv) (vm_name : String) (off : Bool) :
    List String × WfResult :=
  let m : WfM Unit :=
    if ¬ env.vmFound then
      wfFail (.invalidParameter
        ("VM " ++ vm_name ++ " not found in vSphere, something is terribly wrong here"))
    else if env.powerState = "poweredOff" ∧ ¬ off then
      wfBind (wfEmit "PowerOnVM_Task") (fun _ =>
      wfBind (wfWaitDone env.task) (fun _ =>
      if env.powerStateAfter ≠ "poweredOn" then
        wfFail (.taskFailed (vm_name ++ " was not successfully powered on"))
      else wfPure ()))
    else if env.powerState = "poweredOn" ∧ off then
      wfBind (wfEmit "PowerOffVM_Task") (fun _ =>
      wfBind (wfWaitDone env.task) (fun _ =>
      if env.powerStateAfter ≠ "poweredOff" then
        wfFail (.taskFailed (vm_name ++ " was not successfully powered off"))
      else wfPure ()))
    else wfPure ()
  match m [] with
  | (tr, .ok _) => (tr, .completed none)
  | (tr, .error r) => (tr, r)

/-! #### `create_snapshot` (vmops.py lines 242-260) and
`revert_to_snapshot` (lines 262-308) -/

structure SnapEnv where
  vmFound : Bool
  /-- truthiness of `os.environ.get("CLONE_WITHOUT_SNAPSHOT")`. -/
  skipSnapshot : Bool
  task : List TaskObj
deriving DecidableEq

/-- `create_snapshot`: optionally skipped through the environment
override; the task wait does not inspect the terminal status. -/
def create_snapshot (env : SnapEnv) (vm_name : String) : List String × WfResult :=
  let m : WfM Unit :=
    if ¬ env.vmFound then
      wfFail (.invalidParameter
        ("VM " ++ vm_name ++ " not found in vSphere, something is terribly wrong here"))
    else if env.skipSnapshot then wfPure ()
    else
      wfBind (wfEmit "CreateSnapshot_Task") (fun _ =>
      wfBind (wfWaitDone env.task) (fun _ => wfPure ()))
  match m [] with
  | (tr, .ok _) => (tr, .completed none)
  | (tr, .error r) => (tr, r)

structure RevertEnv where
  vmFound : Bool
  /-- `len(vm.find_snapshots_by_name(name))` for the requested name. -/
  matchingSnapshots : Nat
  revertTask : List TaskObj
  ipInitial : GuestSnap
  ipWait : List GuestSnap
deriving DecidableEq

/-- `revert_to_snapshot`: with a name, exactly one matching snapshot is
required before the revert call is issued; the task wait does not inspect
the terminal status; optionally wait for an address afterwards. -/
def revert_to_snapshot (env : RevertEnv) (vm_name : String) (name : Option String)
    (wait_for_ip : Bool) : List String × WfResult :=
  let m : WfM (Option String) :=
    if ¬ env.vmFound then
      wfFail (.invalidParameter
        ("VM " ++ vm_name ++ " not found in vSphere, something is terribly wrong here"))
    else
      wfBind
        (match name with
        | some _ =>
          if env.matchingSnapshots ≠ 1 then
            wfFail (.invalidParameter
              "there must be one, and only one, snapshot with the name")
          else wfEmit "RevertToSnapshot_Task"
        | none => wfEmit "RevertToCurrentSnapshot_Task")
        (fun _ =>
          wfBind (wfWaitDone env.revertTask) (fun _ =>
          if wait_for_ip then
            match gotIp env.ipInitial with
            | some ip => wfPure (some ip)
            | none => fun tr => ((waitIpGo env.ipWait).map some |> fun r => (tr, r))
          else wfPure none))
  match m [] with
  | (tr, .ok ip) => (tr, .completed ip)
  | (tr, .error r) => (tr, r)

/-! ### vmops.py: `run_on_instances` (lines 443-485)

The scheduler treats the generators, the instance dicts and the task
objects opaquely, so they are modelled abstractly here:

* an instance dict is an association list `Ctx` living in a heap addressed
  by `Nat` (Python object identity), so that the shallow-copy semantics of
  `copy.copy(instance_dict)` is visible;
* a generator is a step function `Nat → Option Nat → GenOut`: from its
  internal state and the value sent into it (`None` on the first send),
  it either yields a task handle (always a truthy object in vmops.py),
  returns (`StopIteration`), raises, or raises `KeyboardInterrupt`; the
  writes a resume performs on its own instance copy before suspending are
  carried on the step outcome;
* the batched refresh `update_many_objects` (whose internals are modelled
  separately above) acts on the opaque handles through the tick oracle
  `oracle : Nat → Nat`; its success flag is discarded by the scheduler
  (`_, tasks = ...`), empty entries are returned unchanged, and a
  soft-failing tick is the special case `oracle = id` on those handles. -/

abbrev Ctx := List (String × String)

abbrev Heap := Nat → Ctx

def heapSet (h : Heap) (a : Nat) (c : Ctx) : Heap :=
  fun x => if x = a then c else h x

def applyWrites (ws : List (String × String)) (c : Ctx) : Ctx :=
  ws.foldl (fun c p => assocSet p.1 p.2 c) c

/-- Outcome of one `ops[instance_id].send(tasks[instance_id])`. -/
inductive GenOut where
  | yields (next : Nat) (t : Nat) (writes : List (String × String))
  | stops (writes : List (String × String))
  | raises (msg : String) (writes : List (String × String))
  | interrupt

/-- A generator: initial internal state plus step function. -/
structure Gen where
  start : Nat
  step : Nat → Option Nat → GenOut

/-- One live workflow of the scheduler: the `ops` entry (generator state),
the `tasks` entry (last yielded handle, `None` before the first yield) and
the address of its `updated_instances` copy. -/
structure Live where
  id : String
  gstep : Nat → Option Nat → GenOut
  st : Nat
  task : Option Nat
  addr : Nat

def refreshLive (oracle : Nat → Nat) (l : Live) : Live :=
  { l with task := l.task.map oracle }

/-- `if any(tasks.itervalues()): _, tasks = self.vim.update_many_objects(tasks)`:
when at least one handle is outstanding all handles are refreshed through
the oracle (empty entries returned as supplied). -/
def refreshTasks (oracle : Nat → Nat) (ls : List Live) : List Live :=
  if ls.any (fun l => l.task.isSome) then ls.map (refreshLive oracle) else ls

inductive TickOut where
  | ok (ls : List Live) (h : Heap)
  | interrupted

/-- The `for instance_id in list(ops)` body: resume every live workflow
once with its refreshed handle.  `StopIteration` removes the workflow;
`KeyboardInterrupt` re-raises out of the whole call; any other exception
writes the failure text under `'error'` into that workflow's instance
copy and removes the workflow. -/
def resumeAll : List Live → Heap → TickOut
  | [], h => .ok [] h
  | l :: rest, h =>
    match l.gstep l.st l.task with
    | .yields s' t ws =>
      (match resumeAll rest (heapSet h l.addr (applyWrites ws (h l.addr))) with
       | .ok ls h' => .ok ({ l with st := s', task := some t } :: ls) h'
       | .interrupted => .interrupted)
    | .stops ws =>
      resumeAll rest (heapSet h l.addr (applyWrites ws (h l.addr)))
    | .raises e ws =>
      resumeAll rest (heapSet h l.addr (assocSet "error" e (applyWrites ws (h l.addr))))
    | .interrupt => .interrupted

inductive RunOut where
  | finished (h : Heap)
  | interrupted

/-- The `while ops:` loop, one tick per unit of fuel (the `time.sleep(2)`
pacing and the 10-second progress log have no effect on the result).
`none` means the fuel ran out with workflows still live — in Python the
loop would simply keep ticking. -/
def orchLoop (oracle : Nat → Nat) : Nat → List Live → Heap → Option RunOut
  | 0, ls, h => if ls.isEmpty then some (.finished h) else none
  | fuel + 1, ls, h =>
    if ls.isEmpty then some (.finished h)
    else
      match resumeAll (refreshTasks oracle ls) h with
      | .ok ls' h' => orchLoop oracle fuel ls' h'
      | .interrupted => some .interrupted

/-- The set-up loop: for each `(instance_id, instance_dict)` pair, store a
shallow copy at the next fresh address, create the generator on the copy
and initialise its `tasks` entry to `None`. -/
def initRun (operation : Ctx → Gen) (fresh : Nat) :
    List (String × Nat) → Heap → List Live × Heap
  | [], h => ([], h)
  | p :: rest, h =>
    let ctx := h p.2
    let g := operation ctx
    let (ls, h') := initRun operation (fresh + 1) rest (heapSet h fresh ctx)
    ({ id := p.1, gstep := g.step, st := g.start, task := none, addr := fresh } :: ls, h')

/-- The `updated_instances` mapping: same ids, pointing at the copies. -/
def allocOut (fresh : Nat) : List (String × Nat) → List (String × Nat)
  | [] => []
  | p :: rest => (p.1, fresh) :: allocOut (fresh + 1) rest

inductive RunResult where
  | ok (h : Heap) (out : List (String × Nat))
  | interrupted

/-- `run_on_instances`: instances are pairs of workflow id and the heap
address of the caller-supplied instance dict; copies are stored from
address `fresh` upwards. -/
def run_on_instances (oracle : Nat → Nat) (operation : Ctx → Gen)
    (fresh fuel : Nat) (instances : List (String × Nat)) (h : Heap) :
    Option RunResult :=
  match initRun operation fresh instances h with
  | (ls, h0) =>
    match orchLoop oracle fuel ls h0 with
    | some (.finished h') => some (.ok h' (allocOut fresh instances))
    | some .interrupted => some .interrupted
    | none => none

/-- One workflow driven alone against the same oracle: what
`run_on_instances` does to a single generator, with the `'error'` capture
of the scheduler boundary applied to its instance copy. -/
inductive SingleOut where
  | finished (ctx : Ctx)
  | failed (e : String) (ctx : Ctx)
  | interrupted

def SingleOut.ctxOf : SingleOut → Option Ctx
  | .finished c => some c
  | .failed _ c => some c
  | .interrupted => none

def runSingle (oracle : Nat → Nat) (step : Nat → Option Nat → GenOut) :
    Nat → Nat → Option Nat → Ctx → Option SingleOut
  | 0, _, _, _ => none
  | fuel + 1, s, last, ctx =>
    match step s (last.map oracle) with
    | .yields s' t ws => runSingle oracle step fuel s' (some t) (applyWrites ws ctx)
    | .stops ws => some (.finished (applyWrites ws ctx))
    | .raises e ws => some (.failed e (assocSet "error" e (applyWrites ws ctx)))
    | .interrupt => some .interrupted

/-- The per-entry effect of one resume: the surviving live entry (when
the generator yields again), used to characterise `resumeAll`. -/
def stepSurvivor (l : Live) : Option Live :=
  match l.gstep l.st l.task with
  | .yields s' t _ => some { l with st := s', task := some t }
  | _ => none

/-- The per-entry effect of one resume on the entry's instance copy. -/
def stepCtx (l : Live) (c : Ctx) : Ctx :=
  match l.gstep l.st l.task with
  | .yields _ _ ws => applyWrites ws c
  | .stops ws => applyWrites ws c
  | .raises e ws => assocSet "error" e (applyWrites ws c)
  | .interrupt => c

/-- The copy addresses allocated by `initRun`: `fresh, fresh+1, ...`. -/
def addrSeq (fresh : Nat) : Nat → List Nat
  | 0 => []
  | n + 1 => fresh :: addrSeq (fresh + 1) n

/-! ### Concrete data used by witnesses and counterexamples -/

/-- The spec example: free capacities [100, 500, 200], required size 50. -/
def exBase : BaseVmView :=
  ⟨50, [⟨"ds1", 100⟩, ⟨"ds2", 500⟩, ⟨"ds3", 200⟩]⟩

/-- The task-info snapshots used by the concrete environments. -/
def tiSuccess : TaskInfo := { state := "success" }

def tiBoom : TaskInfo := { state := "error", errorMessage := "boom", errorFault := "fault" }

def tiDiskFull : TaskInfo :=
  { state := "error", errorMessage := "disk full", errorFault := "NoDiskSpace" }

def gsNotRunning : GuestSnap := { toolsStatus := some "guestToolsNotRunning" }

/-- A powered-off VM whose delete task ends in `error`. -/
def delEnvErr : DeleteEnv :=
  { vmFound := true, powerState := "poweredOff", powerOffTask := [],
    powerStateAfterOff := "poweredOff", deleteTask := [{ info := some tiBoom }] }

/-- A clone environment where everything up to power-on succeeds. -/
def baseEnvOk : GetBaseEnv :=
  { findBaseVm := some { perDatastoreCommitted := [50] },
    datastores := [⟨"ds1", 100⟩, ⟨"ds2", 500⟩, ⟨"ds3", 200⟩],
    clusterDatastores := none }

def cloneTaskEnvOk : CloneTaskEnv :=
  { datastoreByName := true, resourcePoolByName := true,
    computeResourceFound := true, rootResourcePoolParentTypes := ["ComputeResource"],
    folderFound := true }

def cloneEnvOk : CloneEnv :=
  { base := baseEnvOk,
    existingClone := none, powerOffTask := [], deleteTask := [], choice := 0,
    cloneTaskEnv := cloneTaskEnvOk,
    cloneTask := [{ info := some tiSuccess }], cloneFound := true, reconfigTask := [],
    powerOnTask := [{ info := some tiSuccess }], powerStateAfterOn := "poweredOn",
    toolInitial := gsNotRunning, toolWaitStart := 1000,
    toolWait := [(gsNotRunning, 1030), (gsNotRunning, 1070)],
    ipInitial := { ipAddress := some "10.0.0.7" }, ipWait := [],
    snapshotTask := [{ info := some tiSuccess }] }

/-- A clone environment whose clone task ends in `error`. -/
def cloneEnvTaskErr : CloneEnv :=
  { cloneEnvOk with cloneTask := [{ info := some tiDiskFull }] }

def ifBad : NetIf := { name := "eth0", address := some "192.168.2.2", netmask := none }

def ifGood : NetIf :=
  { name := "eth0", address := some "192.168.2.2", netmask := some "255.255.255.0" }

/-- An instance whose network config lacks the netmask of `eth0`. -/
def instBadNet : Instance :=
  { vm_name := "vm1", base_vm_name := "base1", datastore := some "ds2",
    network := some { interfaces := [ifBad] },
    username := some "root", password := some "pw" }

/-- An instance with a well-formed network config. -/
def instGoodNet : Instance :=
  { instBadNet with
    network := some { interfaces := [ifGood], gateway := some "192.168.2.1" } }

/-- A found VM observed in the `suspended` power state. -/
def powEnvSusp : PowerEnv :=
  { vmFound := true, powerState := "suspended", task := [], powerStateAfter := "suspended" }

/-- A clone environment meeting a powered-on old VM whose nuke power-off,
nuke delete and reconfigure tasks all end in `error`. -/
def cloneEnvNukeErr : CloneEnv :=
  { cloneEnvOk with
    existingClone := some "poweredOn"
    powerOffTask := [{ info := some tiBoom }]
    deleteTask := [{ info := some tiBoom }]
    reconfigTask := [{ info := some tiBoom }] }

/-- The same nuke environment over a base image no datastore can hold. -/
def cloneEnvNukeNoRoom : CloneEnv :=
  { cloneEnvNukeErr with base := { baseEnvOk with datastores := [⟨"ds1", 10⟩] } }

/-- An instance requesting a hardware reconfiguration with valid disk and
NIC specs. -/
def instHw : Instance :=
  { instBadNet with
    hardware := some { disks := [{ size := 10 }], nics := [{ network := some "net1" }] } }

/-- An instance that lets `place_vm` choose the datastore. -/
def instNoDs : Instance := { instBadNet with datastore := none }

/-- A powered-on delete target whose power-off and destroy tasks end in
`error` while the refreshed state is `poweredOff`. -/
def delEnvOnErr : DeleteEnv :=
  { vmFound := true, powerState := "poweredOn",
    powerOffTask := [{ info := some tiBoom }],
    powerStateAfterOff := "poweredOff",
    deleteTask := [{ info := some tiBoom }] }

/-- A powered-on VM whose power-off task ends in `error` while the
refreshed state is `poweredOff`. -/
def powEnvOffErr : PowerEnv :=
  { vmFound := true, powerState := "poweredOn",
    task := [{ info := some tiBoom }], powerStateAfter := "poweredOff" }

/-- A generator that finishes on its first resume, writing a result
field. -/
def genStopper : Gen := ⟨0, fun _ _ => .stops [("ipv4", "10.0.0.9")]⟩

/-- A generator that raises on its first resume. -/
def genFailer : Gen := ⟨0, fun _ _ => .raises "ValueError: kaboom" []⟩

/-- A generator that raises `KeyboardInterrupt` on its first resume. -/
def genKI : Gen := ⟨0, fun _ _ => .interrupt⟩

/-- The workflow factory used by the scheduler witnesses: instances whose
dict carries `mode = fail` get the failing generator. -/
def opEx : Ctx → Gen := fun c =>
  if assocGet "mode" c = some "fail" then genFailer else genStopper

/-- Two caller-owned instance dicts at addresses 0 and 1. -/
def heapEx : Heap := fun a =>
  if a = 0 then [("mode", "ok")] else if a = 1 then [("mode", "fail")] else []

/-- The heap after one scheduler tick on `heapEx`: both copies written,
the failing workflow's copy carrying the `error` field. -/
def heapExFinal : Heap :=
  heapSet (heapSet (heapSet (heapSet heapEx 10 (heapEx 0)) 11 (heapEx 1))
      10 [("mode", "ok"), ("ipv4", "10.0.0.9")])
    11 [("mode", "fail"), ("error", "ValueError: kaboom")]

/-! ## Theorems -/

theorem assocGet_assocSet {α β : Type} [DecidableEq α] (k : α) (v : β) :
    ∀ m : List (α × β), assocGet k (assocSet k v m) = some v := by
  intro m
  induction m with
  | nil => simp [assocSet, assocGet]
  | cons p rest ih =>
    by_cases h : p.1 = k
    · simp [assocSet, h, assocGet]
    · simp [assocSet, h, assocGet, ih]

theorem mem_assocSet_of_ne {α β : Type} [DecidableEq α] {k k' : α} {v : β} (v' : β)
    (hne : k ≠ k') : ∀ m : List (α × β), (k, v) ∈ m → (k, v) ∈ assocSet k' v' m := by
  intro m
  induction m with
  | nil => intro h; cases h
  | cons p rest ih =>
    intro hmem
    rcases List.mem_cons.1 hmem with heq | hrest
    · subst heq
      simp only [assocSet]
      rw [if_neg (by simpa using hne)]
      exact List.mem_cons_self _ _
    · simp only [assocSet]
      by_cases hp : p.1 = k'
      · rw [if_pos hp]; exact List.mem_cons_of_mem _ hrest
      · rw [if_neg hp]; exact List.mem_cons_of_mem _ (ih hrest)

theorem assocGet_assocSet_ne {α β : Type} [DecidableEq α] {k k' : α} (v : β)
    (hne : k ≠ k') : ∀ m : List (α × β), assocGet k (assocSet k' v m) = assocGet k m := by
  have hne' : ¬ k' = k := fun h => hne h.symm
  intro m
  induction m with
  | nil => simp [assocSet, assocGet, hne']
  | cons p rest ih =>
    by_cases hp : p.1 = k'
    · have hpk : ¬ p.1 = k := by rw [hp]; exact hne'
      simp only [assocSet, if_pos hp, assocGet, if_neg hne', if_neg hpk]
    · simp only [assocSet, if_neg hp, assocGet]
      by_cases hk : p.1 = k
      · simp [hk]
      · simp [hk, ih]

/-- Keys stored as values of the `object_map` dict all name a non-empty
entry of `objects`. -/
theorem objectMap_values_mem (objects : List (String × Option MObj)) :
    ∀ (m₀ : List (String × String)) (v key : String),
      assocGet v (objects.foldl
        (fun m p => match p.2 with
          | some o => assocSet o.mor.value p.1 m
          | none => m) m₀) = some key →
      (∃ o, (key, some o) ∈ objects) ∨ assocGet v m₀ = some key := by
  induction objects with
  | nil => intro m₀ v key h; exact Or.inr h
  | cons p rest ih =>
    intro m₀ v key h
    simp only [List.foldl_cons] at h
    cases hp : p.2 with
    | none =>
      rw [hp] at h
      rcases ih _ v key h with ⟨o, ho⟩ | hbase
      · exact Or.inl ⟨o, List.mem_cons_of_mem _ ho⟩
      · exact Or.inr hbase
    | some o =>
      rw [hp] at h
      rcases ih _ v key h with ⟨o', ho⟩ | hbase
      · exact Or.inl ⟨o', List.mem_cons_of_mem _ ho⟩
      · by_cases hv : v = o.mor.value
        · subst hv
          rw [assocGet_assocSet] at hbase
          cases hbase
          exact Or.inl ⟨o, by rw [← hp]; exact List.mem_cons_self _ _⟩
        · rw [assocGet_assocSet_ne _ hv] at hbase
          exact Or.inr hbase

/-- The success-path write-back loop of `update_many_objects` keeps every
empty entry `(k, none)` provided no content maps onto `k`. -/
theorem umoFold_preserves_empty (object_map : List (String × String))
    (k : String)
    (hk : ∀ v key, assocGet v object_map = some key → key ≠ k) :
    ∀ (contents : List ObjContent) (m m' : List (String × Option MObj)),
      (k, (none : Option MObj)) ∈ m →
      umoFold object_map contents m = some m' →
      (k, none) ∈ m' := by
  intro contents
  induction contents with
  | nil =>
    intro m m' hmem h
    cases h
    exact hmem
  | cons c rest ih =>
    intro m m' hmem h
    unfold umoFold at h
    cases hmap : assocGet c.obj.value object_map with
    | none => rw [hmap] at h; cases h
    | some key =>
      rw [hmap] at h
      exact ih _ _ (mem_assocSet_of_ne _ (fun he => hk _ _ hmap he.symm) _ hmem) h

/-- C4. `update_many_objects` (i) returns every entry whose handle is
empty unchanged, and (ii) whenever the remote reply holds fewer (or simply
a different number of) contents than the number of requested references,
it returns `allSucceeded = false` together with the original mapping,
completely unchanged. -/
theorem update_many_objects_refresh_contract
    (invokeRetrieve : List MORef → Option (List ObjContent))
    (objects : List (String × Option MObj))
    (hkeys : (objects.map Prod.fst).Nodup) :
    (∀ flag res, update_many_objects invokeRetrieve objects = some (flag, res) →
      ∀ k, (k, (none : Option MObj)) ∈ objects → (k, none) ∈ res) ∧
    (∀ contents,
      invokeRetrieve (umoObjectSet objects) = some contents →
      contents.length ≤ (umoObjectSet objects).length →
      contents.length ≠ (umoObjectSet objects).length →
      update_many_objects invokeRetrieve objects = some (false, objects)) := by
  constructor
  · intro flag res hrun k hk
    cases hinv : invokeRetrieve (umoObjectSet objects) with
    | none =>
      have heq : update_many_objects invokeRetrieve objects = some (false, objects) := by
        unfold update_many_objects; rw [hinv]
      rw [heq] at hrun
      simp only [Option.some.injEq, Prod.mk.injEq] at hrun
      rw [← hrun.2]; exact hk
    | some contents =>
      by_cases hlen : contents.length = 0 ∨ contents.length ≠ objects.length
      · have heq : update_many_objects invokeRetrieve objects = some (false, objects) := by
          unfold update_many_objects; rw [hinv]; exact if_pos hlen
        rw [heq] at hrun
        simp only [Option.some.injEq, Prod.mk.injEq] at hrun
        rw [← hrun.2]; exact hk
      · have heq : update_many_objects invokeRetrieve objects =
            (umoFold (umoObjectMap objects) contents (umoBase objects)).map
              (fun m => (true, m)) := by
          unfold update_many_objects; rw [hinv]; exact if_neg hlen
        rw [heq] at hrun
        cases hfold : umoFold (umoObjectMap objects) contents (umoBase objects) with
        | none => rw [hfold] at hrun; cases hrun
        | some m' =>
          rw [hfold] at hrun
          have hrun2 : some (((true : Bool), m') :
              Bool × List (String × Option MObj)) = some (flag, res) := hrun
          have hres : res = m' := by
            injection hrun2 with h
            exact (congrArg Prod.snd h).symm
          rw [hres]
          have hbase : (k, (none : Option MObj)) ∈ umoBase objects := by
            refine List.mem_filterMap.2 ⟨(k, none), hk, ?_⟩
            simp
          refine umoFold_preserves_empty _ k ?_ contents _ m' hbase hfold
          intro v key hget hkey
          rcases objectMap_values_mem objects [] v key hget with ⟨o, ho⟩ | hnil
          · rw [hkey] at ho
            have := List.inj_on_of_nodup_map hkeys hk ho rfl
            simp at this
          · cases hnil
  · intro contents hinv hle hne
    have hlt : contents.length < (umoObjectSet objects).length :=
      lt_of_le_of_ne hle hne
    have hobj : contents.length < objects.length :=
      lt_of_lt_of_le hlt (List.length_filterMap_le _ _)
    unfold update_many_objects
    rw [hinv]
    exact if_pos (Or.inr (Nat.ne_of_lt hobj))

theorem update_many_objects_refresh_contract_witness :
    update_many_objects updInvokeEx updObjectsEx = some (false, updObjectsEx) ∧
    ("a", (none : Option MObj)) ∈ updObjectsEx := by
  have h := update_many_objects_refresh_contract updInvokeEx updObjectsEx (by decide)
  have hsoft := h.2 [] rfl (by decide) (by decide)
  exact ⟨hsoft, h.1 false updObjectsEx hsoft "a" (by decide)⟩

theorem mem_possibleTargets {b : BaseVmView} {d : DStore} :
    d ∈ possibleTargets b ↔ d ∈ b.available_datastores ∧ b.size < d.freeSpace := by
  unfold possibleTargets
  rw [(List.perm_insertionSort dsGE _).mem_iff, List.mem_filter]
  simp

theorem sorted_head_bound {l : List DStore} (hs : List.Sorted dsGE l) (h : 0 < l.length) :
    ∀ d ∈ l, d.freeSpace ≤ (l.get ⟨0, h⟩).freeSpace := by
  cases l with
  | nil => exact absurd h (lt_irrefl 0)
  | cons x rest =>
    intro d hd
    rcases List.mem_cons.1 hd with rfl | hdrest
    · exact le_refl _
    · exact (List.sorted_cons.1 hs).1 d hdrest

theorem placeTarget_mem (choice : Nat) (strategy : String) (b : BaseVmView)
    (h : 0 < (possibleTargets b).length) :
    placeTarget choice strategy b h ∈ possibleTargets b := by
  unfold placeTarget
  split <;> exact List.get_mem _ _ _

/-- When no datastore has strictly more free space than the base size,
`possible_targets` is empty and `place_vm` raises
`InvalidParameterError`. -/
theorem place_vm_no_candidates (choice : Nat) (strategy : String) (b : BaseVmView)
    (hstrat : strategy = "random" ∨ strategy = "most-space")
    (hno : ∀ d ∈ b.available_datastores, d.freeSpace ≤ b.size) :
    place_vm choice strategy b =
      .error (.invalidParameter "no suitable datastore found. Are they all low on space?") := by
  have hfilter : b.available_datastores.filter
      (fun x => decide (b.size < x.freeSpace)) = [] := by
    rw [List.filter_eq_nil_iff]
    intro d hd
    simp only [decide_eq_true_eq]
    exact not_lt.2 (hno d hd)
  have hempty : possibleTargets b = [] := by
    unfold possibleTargets
    rw [hfilter]
    rfl
  unfold place_vm
  rw [if_pos hstrat, dif_neg]
  rw [hempty]
  exact lt_irrefl 0

/-- C5.  For every non-empty candidate list, `place_vm` only ever selects
a candidate whose free space strictly exceeds the base VM size;
`most-space` selects one of maximal free space among those; `random` can
select exactly the members of that candidate set; and when no candidate
has enough space the placement fails with `InvalidParameterError` without
selecting anything. -/
theorem place_vm_selection_contract (choice : Nat) (strategy : String) (b : BaseVmView) :
    (∀ t b', place_vm choice strategy b = .ok (t, b') →
      t ∈ b.available_datastores ∧ b.size < t.freeSpace ∧
      (strategy = "most-space" →
        ∀ d ∈ b.available_datastores, b.size < d.freeSpace → d.freeSpace ≤ t.freeSpace)) ∧
    ((strategy = "random" ∨ strategy = "most-space") →
      (∀ d ∈ b.available_datastores, d.freeSpace ≤ b.size) →
      place_vm choice strategy b =
        .error (.invalidParameter "no suitable datastore found. Are they all low on space?")) ∧
    (∀ d ∈ b.available_datastores, b.size < d.freeSpace →
      ∃ c b', place_vm c "random" b = .ok (d, b')) := by
  refine ⟨?_, ?_, ?_⟩
  · intro t b' hok
    unfold place_vm at hok
    split at hok
    · split at hok
      · rename_i hs hlen
        injection hok with hpair
        obtain rfl : t = placeTarget choice strategy b hlen :=
          (congrArg Prod.fst hpair).symm
        have hmem := mem_possibleTargets.1 (placeTarget_mem choice strategy b hlen)
        refine ⟨hmem.1, hmem.2, ?_⟩
        intro hms d hd hdsize
        have hdm : d ∈ possibleTargets b := mem_possibleTargets.2 ⟨hd, hdsize⟩
        have hsorted : List.Sorted dsGE (possibleTargets b) :=
          List.sorted_insertionSort dsGE _
        have := sorted_head_bound hsorted hlen d hdm
        unfold placeTarget
        rw [if_pos hms]
        exact this
      · cases hok
    · cases hok
  · intro hstrat hno
    exact place_vm_no_candidates choice strategy b hstrat hno
  · intro d hd hdsize
    have hdm : d ∈ possibleTargets b := mem_possibleTargets.2 ⟨hd, hdsize⟩
    obtain ⟨⟨i, hi⟩, hget⟩ := List.mem_iff_get.1 hdm
    have hlen : 0 < (possibleTargets b).length := lt_of_le_of_lt (Nat.zero_le i) hi
    refine ⟨i, { b with available_datastores :=
      b.available_datastores.map (fun x =>
        if x.name = d.name then { x with freeSpace := x.freeSpace - b.size } else x) }, ?_⟩
    unfold place_vm
    rw [if_pos (Or.inl rfl), dif_pos hlen]
    have htgt : placeTarget i "random" b hlen = d := by
      unfold placeTarget
      rw [if_neg (by decide)]
      have hidx : (⟨i % (possibleTargets b).length, Nat.mod_lt _ hlen⟩ :
          Fin (possibleTargets b).length) = ⟨i, hi⟩ :=
        Fin.ext (Nat.mod_eq_of_lt hi)
      rw [hidx, hget]
    rw [htgt]

/-- C7.  After a successful placement the chosen datastore's cached
free-space figure is decremented by exactly the base's size (the total
committed disk size when the base view comes from `_get_base_vm`), and
every other candidate's cached figure is unchanged; the updated view is
returned for subsequent placements, with no remote call involved. -/
theorem place_vm_cache_decrement (choice : Nat) (strategy : String) (b : BaseVmView)
    (t : DStore) (b' : BaseVmView)
    (hok : place_vm choice strategy b = .ok (t, b'))
    (_hnames : (b.available_datastores.map DStore.name).Nodup) :
    b'.size = b.size ∧
    b'.available_datastores.length = b.available_datastores.length ∧
    (∀ d ∈ b.available_datastores, d.name = t.name →
      { d with freeSpace := d.freeSpace - b.size } ∈ b'.available_datastores) ∧
    (∀ d ∈ b.available_datastores, d.name ≠ t.name → d ∈ b'.available_datastores) ∧
    (∀ env df cl raw base, get_base_vm env df cl = .ok (some base) →
      env.findBaseVm = some raw →
      base.size = baseSize raw) := by
  have hb' : b'.available_datastores = b.available_datastores.map (fun d =>
      if d.name = t.name then { d with freeSpace := d.freeSpace - b.size } else d) ∧
      b'.size = b.size := by
    unfold place_vm at hok
    split at hok
    · split at hok
      · injection hok with hpair
        have h1 := congrArg Prod.fst hpair
        have h2 := congrArg Prod.snd hpair
        simp only at h1 h2
        rw [← h2, ← h1]
        exact ⟨rfl, rfl⟩
      · cases hok
    · cases hok
  refine ⟨hb'.2, ?_, ?_, ?_, ?_⟩
  · rw [hb'.1, List.length_map]
  · intro d hd hdt
    rw [hb'.1]
    refine List.mem_map.2 ⟨d, hd, ?_⟩
    rw [if_pos hdt]
  · intro d hd hdt
    rw [hb'.1]
    refine List.mem_map.2 ⟨d, hd, ?_⟩
    rw [if_neg hdt]
  · intro env df cl raw base hbase hraw
    cases cl with
    | none =>
      have h2 : get_base_vm env df none = (if baseSize raw ≤ 0 then
          (.error (.assertionError "base vm size is zero? Very unlikely...") :
            Except WfFail (Option BaseVmView))
        else .ok (some ⟨baseSize raw,
          env.datastores.filter (fun x => strContains x.name df)⟩)) := by
        unfold get_base_vm
        rw [hraw]
      rw [h2] at hbase
      split at hbase
      · cases hbase
      · injection hbase with h
        injection h with h
        rw [← h]
    | some cname =>
      cases hcd : env.clusterDatastores with
      | none =>
        have h2 : get_base_vm env df (some cname) = (if baseSize raw ≤ 0 then
            (.error (.assertionError "base vm size is zero? Very unlikely...") :
              Except WfFail (Option BaseVmView))
          else .error (.invalidParameter
            ("specified ClusterComputeResource " ++ cname ++ " not found"))) := by
          unfold get_base_vm
          rw [hraw, hcd]
        rw [h2] at hbase
        split at hbase <;> cases hbase
      | some ds =>
        have h2 : get_base_vm env df (some cname) = (if baseSize raw ≤ 0 then
            (.error (.assertionError "base vm size is zero? Very unlikely...") :
              Except WfFail (Option BaseVmView))
          else .ok (some ⟨baseSize raw,
            ds.filter (fun x => strContains x.name df)⟩)) := by
          unfold get_base_vm
          rw [hraw, hcd]
        rw [h2] at hbase
        split at hbase
        · cases hbase
        · injection hbase with h
          injection h with h
          rw [← h]

theorem place_vm_selection_contract_witness :
    ((⟨"ds2", 500⟩ : DStore) ∈ exBase.available_datastores ∧
      exBase.size < (500 : Int) ∧
      ("most-space" = "most-space" →
        ∀ d ∈ exBase.available_datastores, exBase.size < d.freeSpace →
          d.freeSpace ≤ (500 : Int))) := by
  have h := (place_vm_selection_contract 0 "most-space" exBase).1 ⟨"ds2", 500⟩
    ⟨50, [⟨"ds1", 100⟩, ⟨"ds2", 450⟩, ⟨"ds3", 200⟩]⟩ rfl
  exact h

theorem place_vm_cache_decrement_witness :
    (⟨"ds2", 450⟩ : DStore) ∈ ([⟨"ds1", 100⟩, ⟨"ds2", 450⟩, ⟨"ds3", 200⟩] : List DStore) ∧
    (⟨"ds1", 100⟩ : DStore) ∈ ([⟨"ds1", 100⟩, ⟨"ds2", 450⟩, ⟨"ds3", 200⟩] : List DStore) := by
  have h := place_vm_cache_decrement 0 "most-space" exBase ⟨"ds2", 500⟩
    ⟨50, [⟨"ds1", 100⟩, ⟨"ds2", 450⟩, ⟨"ds3", 200⟩]⟩ rfl (by decide)
  exact ⟨h.2.2.1 ⟨"ds2", 500⟩ (by decide) rfl, h.2.2.2.1 ⟨"ds1", 100⟩ (by decide) (by decide)⟩

/-- C9.  The power-toggle workflow issues a power call only when the
observed state is exactly `poweredOff` (power-on request) or exactly
`poweredOn` (power-off request); any other observed state — `suspended`
included — completes as a no-op in both directions: no mutating call, no
error. -/
theorem power_on_off_vm_exact_state_gate (env : PowerEnv) (vm_name : String) (off : Bool)
    (hfound : env.vmFound = true) :
    ((off = false → env.powerState ≠ "poweredOff") →
     (off = true → env.powerState ≠ "poweredOn") →
     power_on_off_vm env vm_name off = ([], .completed none)) ∧
    (∀ tr r, power_on_off_vm env vm_name off = (tr, r) → tr ≠ [] →
      (off = false ∧ env.powerState = "poweredOff") ∨
      (off = true ∧ env.powerState = "poweredOn")) := by
  have hnotfound : ¬ ¬ env.vmFound = true := by simp [hfound]
  constructor
  · intro h1 h2
    have hOn : ¬ (env.powerState = "poweredOff" ∧ ¬ off = true) := by
      rintro ⟨hps, hno⟩
      cases off with
      | false => exact h1 rfl hps
      | true => exact hno rfl
    have hOff : ¬ (env.powerState = "poweredOn" ∧ off = true) := by
      rintro ⟨hps, hyes⟩
      cases off with
      | true => exact h2 rfl hps
      | false => cases hyes
    unfold power_on_off_vm
    rw [if_neg hnotfound, if_neg hOn, if_neg hOff]
    rfl
  · intro tr r heq htr
    by_cases hOn : env.powerState = "poweredOff" ∧ ¬ off = true
    · left
      refine ⟨?_, hOn.1⟩
      cases off with
      | false => rfl
      | true => exact absurd rfl hOn.2
    · by_cases hOff : env.powerState = "poweredOn" ∧ off = true
      · right
        exact ⟨hOff.2, hOff.1⟩
      · exfalso
        apply htr
        have : power_on_off_vm env vm_name off = ([], .completed none) := by
          unfold power_on_off_vm
          rw [if_neg hnotfound, if_neg hOn, if_neg hOff]
          rfl
        rw [this] at heq
        exact (congrArg Prod.fst heq).symm

theorem power_on_off_vm_exact_state_gate_witness :
    power_on_off_vm powEnvSusp "vm1" false = ([], .completed none) := by
  exact (power_on_off_vm_exact_state_gate powEnvSusp "vm1" false rfl).1
    (fun _ => by decide) (fun h => by cases h)

/-- The nuke block of `clone_vm` past a powered-on old VM: both the
power-off and the delete waits accept any terminal task status and the
block always proceeds. -/
theorem cloneNukePhase_poweredOn (env : CloneEnv) (i j : TaskInfo) (tr : List String)
    (hex : env.existingClone = some "poweredOn")
    (hwo : waitDone env.powerOffTask = some i)
    (hwd : waitDone env.deleteTask = some j) :
    cloneNukePhase env true tr = (tr ++ ["PowerOffVM_Task"] ++ ["Destroy_Task"], .ok ()) := by
  unfold cloneNukePhase wfWaitDone
  rw [hex, hwo, hwd]
  rfl

/-- Any interface entry with a missing address or netmask makes the
`ifconfig` script loop of the network block raise the invalid-parameter
error, whatever was accumulated before it. -/
theorem buildIfScript_bad (l : List NetIf) :
    ∀ acc : String, (∃ i ∈ l, i.address = none ∨ i.netmask = none) →
    buildIfScript acc l = .error (.invalidParameter
      "address and netmask need to be specified for network interface configurations") := by
  induction l with
  | nil =>
    rintro acc ⟨i, hi, _⟩
    cases hi
  | cons q rest ih =>
    rintro acc ⟨i, hi, hmiss⟩
    unfold buildIfScript
    cases hqa : q.address with
    | none => rfl
    | some a =>
      cases hqm : q.netmask with
      | none => rfl
      | some m =>
        by_cases hempty : a = "" ∨ m = ""
        · simp only [if_pos hempty]
        · simp only [if_neg hempty]
          rcases List.mem_cons.mp hi with heq | hrest
          · subst heq
            rcases hmiss with hA | hN
            · rw [hqa] at hA
              exact Option.noConfusion hA
            · rw [hqm] at hN
              exact Option.noConfusion hN
          · exact ih _ ⟨i, hrest, hmiss⟩

/-- A clone phase that returns successfully appends exactly the
`CloneVM_Task` call to the trace. -/
theorem cloneClonePhase_ok_trace (env : CloneEnv) (inst : Instance) (ds : Bool)
    (tr tr1 : List String) (u : Unit)
    (h : cloneClonePhase env inst ds tr = (tr1, .ok u)) :
    tr1 = tr ++ ["CloneVM_Task"] := by
  cases hres : clone_vm_task_resolution env.cloneTaskEnv inst ds with
  | error e =>
    have h2 : cloneClonePhase env inst ds tr = (tr, .error (.failed e)) := by
      unfold cloneClonePhase
      rw [hres]
      rfl
    rw [h2] at h
    exact absurd (congrArg Prod.snd h) (by simp)
  | ok a =>
    cases hw : waitDone env.cloneTask with
    | none =>
      have h2 : cloneClonePhase env inst ds tr =
          (tr ++ ["CloneVM_Task"], .error .suspended) := by
        unfold cloneClonePhase wfWaitDone
        rw [hres, hw]
        rfl
      rw [h2] at h
      exact absurd (congrArg Prod.snd h) (by simp)
    | some ti =>
      by_cases hs : ti.state ≠ "success"
      · have h2 : cloneClonePhase env inst ds tr = (tr ++ ["CloneVM_Task"],
            .error (.failed (.taskFailed ("CLONE(" ++ inst.vm_name ++
              ") failed with error: " ++ ti.errorMessage ++ " Details: " ++
              ti.errorFault)))) := by
          unfold cloneClonePhase wfWaitDone
          rw [hres, hw]
          simp only [wfBind, wfOfExcept, wfPure, wfEmit]
          rw [if_pos hs]
          rfl
        rw [h2] at h
        exact absurd (congrArg Prod.snd h) (by simp)
      · have h2 : cloneClonePhase env inst ds tr = (tr ++ ["CloneVM_Task"], .ok ()) := by
          unfold cloneClonePhase wfWaitDone
          rw [hres, hw]
          simp only [wfBind, wfOfExcept, wfPure, wfEmit]
          rw [if_neg hs]
          rfl
        rw [h2] at h
        exact (congrArg Prod.fst h).symm

/-- A successful post-clone lookup assert leaves the trace unchanged. -/
theorem cloneAssertFound_ok_trace (env : CloneEnv) (inst : Instance)
    (tr tr1 : List String) (u : Unit)
    (h : cloneAssertFound env inst tr = (tr1, .ok u)) : tr1 = tr := by
  by_cases hf : env.cloneFound = true
  · have h2 : cloneAssertFound env inst tr = (tr, .ok ()) := by
      unfold cloneAssertFound
      rw [if_pos hf]
      rfl
    rw [h2] at h
    exact (congrArg Prod.fst h).symm
  · have h2 : cloneAssertFound env inst tr = (tr, .error (.failed (.assertionError
        ("Could not find vm " ++ inst.vm_name ++
         " after cloning. Must not happen. Ever.")))) := by
      unfold cloneAssertFound
      rw [if_neg hf]
      rfl
    rw [h2] at h
    exact absurd (congrArg Prod.snd h) (by simp)

/-- A reconfiguration phase that returns successfully appends either
nothing (no hardware requested) or exactly the `ReconfigVM_Task` call. -/
theorem cloneReconfigPhase_ok_trace (env : CloneEnv) (inst : Instance)
    (tr tr1 : List String) (u : Unit)
    (h : cloneReconfigPhase env inst tr = (tr1, .ok u)) :
    tr1 = tr ∨ tr1 = tr ++ ["ReconfigVM_Task"] := by
  cases hhw : inst.hardware with
  | none =>
    left
    have h2 : cloneReconfigPhase env inst tr = (tr, .ok ()) := by
      unfold cloneReconfigPhase
      rw [hhw]
      rfl
    rw [h2] at h
    exact (congrArg Prod.fst h).symm
  | some hw =>
    cases hd : checkEach diskSpecCheck hw.disks with
    | error e =>
      have h2 : cloneReconfigPhase env inst tr = (tr, .error (.failed e)) := by
        simp only [cloneReconfigPhase, hhw]
        rw [hd]
        rfl
      rw [h2] at h
      exact absurd (congrArg Prod.snd h) (by simp)
    | ok a =>
      cases hn : checkEach nicSpecCheck hw.nics with
      | error e =>
        have h2 : cloneReconfigPhase env inst tr = (tr, .error (.failed e)) := by
          simp only [cloneReconfigPhase, hhw]
          rw [hd, hn]
          rfl
        rw [h2] at h
        exact absurd (congrArg Prod.snd h) (by simp)
      | ok b =>
        cases hwre : waitDone env.reconfigTask with
        | none =>
          have h2 : cloneReconfigPhase env inst tr =
              (tr ++ ["ReconfigVM_Task"], .error .suspended) := by
            simp only [cloneReconfigPhase, hhw]
            unfold wfWaitDone
            rw [hd, hn, hwre]
            rfl
          rw [h2] at h
          exact absurd (congrArg Prod.snd h) (by simp)
        | some ti =>
          right
          have h2 : cloneReconfigPhase env inst tr =
              (tr ++ ["ReconfigVM_Task"], .ok ()) := by
            simp only [cloneReconfigPhase, hhw]
            unfold wfWaitDone
            rw [hd, hn, hwre]
            rfl
          rw [h2] at h
          exact (congrArg Prod.fst h).symm

/-- A power-on phase that returns successfully appends exactly the
`PowerOnVM_Task` call to the trace. -/
theorem clonePowerOnPhase_ok_trace (env : CloneEnv) (inst : Instance)
    (tr tr1 : List String) (u : Unit)
    (h : clonePowerOnPhase env inst tr = (tr1, .ok u)) :
    tr1 = tr ++ ["PowerOnVM_Task"] := by
  cases hw : waitDone env.powerOnTask with
  | none =>
    have h2 : clonePowerOnPhase env inst tr =
        (tr ++ ["PowerOnVM_Task"], .error .suspended) := by
      unfold clonePowerOnPhase wfWaitDone
      rw [hw]
      rfl
    rw [h2] at h
    exact absurd (congrArg Prod.snd h) (by simp)
  | some ti =>
    by_cases hps : env.powerStateAfterOn ≠ "poweredOn"
    · have h2 : clonePowerOnPhase env inst tr = (tr ++ ["PowerOnVM_Task"], .error (.failed
          (.taskFailed (inst.vm_name ++ " was not successfully powered on")))) := by
        unfold clonePowerOnPhase wfWaitDone
        rw [hw]
        simp only [wfBind, wfPure, wfEmit]
        rw [if_pos hps]
        rfl
      rw [h2] at h
      exact absurd (congrArg Prod.snd h) (by simp)
    · have h2 : clonePowerOnPhase env inst tr = (tr ++ ["PowerOnVM_Task"], .ok ()) := by
        unfold clonePowerOnPhase wfWaitDone
        rw [hw]
        simp only [wfBind, wfPure, wfEmit]
        rw [if_neg hps]
        rfl
      rw [h2] at h
      exact (congrArg Prod.fst h).symm

/-- A lead-in that returns successfully has issued both the clone and the
power-on calls: they appear in its trace. -/
theorem cloneLeadIn_ok_mutations (env : CloneEnv) (inst : Instance) (nuke : Bool)
    (tr0 : List String) (h : cloneLeadIn env inst nuke [] = (tr0, .ok ())) :
    "CloneVM_Task" ∈ tr0 ∧ "PowerOnVM_Task" ∈ tr0 := by
  unfold cloneLeadIn at h
  simp only [wfBind] at h
  cases hgb : get_base_vm env.base inst.datastore_filter inst.cluster with
  | error e =>
    rw [hgb] at h
    simp [wfOfExcept, wfFail] at h
  | ok ob =>
    rw [hgb] at h
    cases ob with
    | none => simp [wfOfExcept, wfPure, wfFail] at h
    | some base =>
      simp only [wfOfExcept, wfPure] at h
      simp only [wfBind] at h
      rcases hnk : cloneNukePhase env nuke [] with ⟨tr1, r1 | a1⟩
      · simp [hnk] at h
      · simp only [hnk] at h
        rcases hpl : clonePlacePhase env inst base tr1 with ⟨tr2, r2 | ds⟩
        · simp [hpl] at h
        · simp only [hpl] at h
          rcases hcl : cloneClonePhase env inst ds tr2 with ⟨tr3, r3 | u3⟩
          · simp [hcl] at h
          · simp only [hcl] at h
            have htr3 : tr3 = tr2 ++ ["CloneVM_Task"] :=
              cloneClonePhase_ok_trace env inst ds tr2 tr3 u3 hcl
            rcases haf : cloneAssertFound env inst tr3 with ⟨tr4, r4 | u4⟩
            · simp [haf] at h
            · simp only [haf] at h
              have htr4 : tr4 = tr3 := cloneAssertFound_ok_trace env inst tr3 tr4 u4 haf
              rcases hrc : cloneReconfigPhase env inst tr4 with ⟨tr5, r5 | u5⟩
              · simp [hrc] at h
              · simp only [hrc] at h
                have htr5 := cloneReconfigPhase_ok_trace env inst tr4 tr5 u5 hrc
                have htr0 : tr0 = tr5 ++ ["PowerOnVM_Task"] :=
                  clonePowerOnPhase_ok_trace env inst tr5 tr0 () h
                subst htr0 htr4 htr3
                rcases htr5 with h5 | h5 <;> rw [h5] <;>
                  simp [List.mem_append]

/-- C2 counterexample.  A delete workflow whose `Destroy_Task` reaches
terminal status `error` does not transition to failed: it completes
normally, contradicting the claim that every task-issuing phase fails on
task status `error`. -/
theorem delete_vm_ignores_task_error_counterexample :
    delete_vm delEnvErr "vm1" = (["Destroy_Task"], .completed none) ∧
    waitDone delEnvErr.deleteTask =
      some { state := "error", errorMessage := "boom", errorFault := "fault" } := by
  exact ⟨rfl, rfl⟩

/-- C2 amended.  Only the clone-task wait of `clone_vm` inspects the
terminal state and raises `TaskFailedError` with the server-reported
message and fault.  The power-off waits of the nuke block, of `delete_vm`
and of `power_on_off_vm`, and the delete, reconfigure, snapshot and
revert task waits all treat `error` as merely terminal and proceed; the
power-on and power-off phases (of `power_on_off_vm`, `delete_vm` and
`clone_vm`) fail only when the subsequently refreshed power state is not
the requested one, whatever the task's terminal status. -/
theorem task_error_only_fails_clone_phase :
    (∀ (env : CloneEnv) (inst : Instance) (dsIsObj : Bool) (i : TaskInfo) (tr : List String),
      clone_vm_task_resolution env.cloneTaskEnv inst dsIsObj = .ok () →
      waitDone env.cloneTask = some i →
      i.state = "error" →
      cloneClonePhase env inst dsIsObj tr =
        (tr ++ ["CloneVM_Task"], .error (.failed (.taskFailed
          ("CLONE(" ++ inst.vm_name ++ ") failed with error: " ++
           i.errorMessage ++ " Details: " ++ i.errorFault))))) ∧
    (∀ (env : DeleteEnv) (vm_name : String) (i : TaskInfo),
      env.vmFound = true →
      env.powerState ≠ "poweredOn" →
      waitDone env.deleteTask = some i →
      i.state = "error" →
      delete_vm env vm_name = (["Destroy_Task"], .completed none)) ∧
    (∀ (env : SnapEnv) (vm_name : String) (i : TaskInfo),
      env.vmFound = true →
      env.skipSnapshot = false →
      waitDone env.task = some i →
      i.state = "error" →
      create_snapshot env vm_name = (["CreateSnapshot_Task"], .completed none)) ∧
    (∀ (env : RevertEnv) (vm_name : String) (i : TaskInfo),
      env.vmFound = true →
      waitDone env.revertTask = some i →
      i.state = "error" →
      revert_to_snapshot env vm_name none false =
        (["RevertToCurrentSnapshot_Task"], .completed none)) ∧
    (∀ (env : PowerEnv) (vm_name : String) (i : TaskInfo),
      env.vmFound = true →
      env.powerState = "poweredOff" →
      waitDone env.task = some i →
      i.state = "error" →
      env.powerStateAfter = "poweredOn" →
      power_on_off_vm env vm_name false = (["PowerOnVM_Task"], .completed none)) ∧
    (∀ (env : CloneEnv) (i j : TaskInfo) (tr : List String),
      env.existingClone = some "poweredOn" →
      waitDone env.powerOffTask = some i →
      i.state = "error" →
      waitDone env.deleteTask = some j →
      j.state = "error" →
      cloneNukePhase env true tr =
        (tr ++ ["PowerOffVM_Task"] ++ ["Destroy_Task"], .ok ())) ∧
    (∀ (env : CloneEnv) (inst : Instance) (hw : HardwareCfg) (i : TaskInfo)
       (tr : List String),
      inst.hardware = some hw →
      checkEach diskSpecCheck hw.disks = .ok () →
      checkEach nicSpecCheck hw.nics = .ok () →
      waitDone env.reconfigTask = some i →
      i.state = "error" →
      cloneReconfigPhase env inst tr = (tr ++ ["ReconfigVM_Task"], .ok ())) ∧
    (∀ (env : DeleteEnv) (vm_name : String) (i j : TaskInfo),
      env.vmFound = true →
      env.powerState = "poweredOn" →
      waitDone env.powerOffTask = some i →
      waitDone env.deleteTask = some j →
      delete_vm env vm_name =
        (if env.powerStateAfterOff ≠ "poweredOff" then
          (["PowerOffVM_Task"],
           .failed (.taskFailed (vm_name ++ " was not successfully powered off")))
        else (["PowerOffVM_Task", "Destroy_Task"], .completed none))) ∧
    (∀ (env : PowerEnv) (vm_name : String) (i : TaskInfo),
      env.vmFound = true →
      env.powerState = "poweredOff" →
      waitDone env.task = some i →
      power_on_off_vm env vm_name false =
        (["PowerOnVM_Task"],
         if env.powerStateAfter ≠ "poweredOn" then
           .failed (.taskFailed (vm_name ++ " was not successfully powered on"))
         else .completed none)) ∧
    (∀ (env : PowerEnv) (vm_name : String) (i : TaskInfo),
      env.vmFound = true →
      env.powerState = "poweredOn" →
      waitDone env.task = some i →
      power_on_off_vm env vm_name true =
        (["PowerOffVM_Task"],
         if env.powerStateAfter ≠ "poweredOff" then
           .failed (.taskFailed (vm_name ++ " was not successfully powered off"))
         else .completed none)) ∧
    (∀ (env : CloneEnv) (inst : Instance) (i : TaskInfo) (tr : List String),
      waitDone env.powerOnTask = some i →
      clonePowerOnPhase env inst tr =
        (tr ++ ["PowerOnVM_Task"],
         if env.powerStateAfterOn ≠ "poweredOn" then
           .error (.failed (.taskFailed (inst.vm_name ++ " was not successfully powered on")))
         else .ok ())) := by
  refine ⟨?_, ?_, ?_, ?_, ?_, ?_, ?_, ?_, ?_, ?_, ?_⟩
  · intro env inst dsIsObj i tr hres hw herr
    obtain ⟨st, msg, fl⟩ := i
    have hst : st = "error" := herr
    subst hst
    unfold cloneClonePhase wfOfExcept wfWaitDone
    rw [hres, hw]
    rfl
  · intro env vm_name i hfound hstate hw _herr
    have h1 : ¬ ¬ env.vmFound = true := by simp [hfound]
    unfold delete_vm wfWaitDone
    rw [if_neg h1, if_neg hstate, hw]
    rfl
  · intro env vm_name i hfound hskip hw _herr
    have h1 : ¬ ¬ env.vmFound = true := by simp [hfound]
    have h2 : ¬ env.skipSnapshot = true := by simp [hskip]
    unfold create_snapshot wfWaitDone
    rw [if_neg h1, if_neg h2, hw]
    rfl
  · intro env vm_name i hfound hw _herr
    have h1 : ¬ ¬ env.vmFound = true := by simp [hfound]
    unfold revert_to_snapshot wfWaitDone
    rw [if_neg h1, hw]
    rfl
  · intro env vm_name i hfound hstate hw _herr hafter
    have h1 : ¬ ¬ env.vmFound = true := by simp [hfound]
    have hcOn : env.powerState = "poweredOff" ∧ ¬ false = true := ⟨hstate, by decide⟩
    unfold power_on_off_vm wfWaitDone
    rw [if_neg h1, if_pos hcOn, hw, hafter]
    rfl
  · intro env i j tr hex hwo _herr hwd _herrd
    exact cloneNukePhase_poweredOn env i j tr hex hwo hwd
  · intro env inst hw i tr hhw hdisks hnics hwre _herr
    simp only [cloneReconfigPhase, hhw]
    unfold wfWaitDone
    rw [hdisks, hnics, hwre]
    rfl
  · intro env vm_name i j hfound hon hwo hwd
    have h1 : ¬ ¬ env.vmFound = true := by simp [hfound]
    unfold delete_vm wfWaitDone
    rw [if_neg h1, if_pos hon, hwo, hwd]
    by_cases hafter : env.powerStateAfterOff ≠ "poweredOff"
    · rw [if_pos hafter, if_pos hafter]
      rfl
    · rw [if_neg hafter, if_neg hafter]
      rfl
  · intro env vm_name i hfound hstate hw
    have h1 : ¬ ¬ env.vmFound = true := by simp [hfound]
    have hcOn : env.powerState = "poweredOff" ∧ ¬ false = true := ⟨hstate, by decide⟩
    unfold power_on_off_vm wfWaitDone
    rw [if_neg h1, if_pos hcOn, hw]
    by_cases hafter : env.powerStateAfter ≠ "poweredOn"
    · rw [if_pos hafter, if_pos hafter]
      rfl
    · rw [if_neg hafter, if_neg hafter]
      rfl
  · intro env vm_name i hfound hstate hw
    have h1 : ¬ ¬ env.vmFound = true := by simp [hfound]
    have hcOn : ¬ (env.powerState = "poweredOff" ∧ ¬ true = true) := fun hc => hc.2 rfl
    have hcOff : env.powerState = "poweredOn" ∧ true = true := ⟨hstate, rfl⟩
    unfold power_on_off_vm wfWaitDone
    rw [if_neg h1, if_neg hcOn, if_pos hcOff, hw]
    by_cases hafter : env.powerStateAfter ≠ "poweredOff"
    · rw [if_pos hafter, if_pos hafter]
      rfl
    · rw [if_neg hafter, if_neg hafter]
      rfl
  · intro env inst i tr hw
    unfold clonePowerOnPhase wfWaitDone
    rw [hw]
    by_cases hafter : env.powerStateAfterOn ≠ "poweredOn"
    · rw [if_pos hafter, if_pos hafter]
      rfl
    · rw [if_neg hafter, if_neg hafter]
      rfl

theorem task_error_only_fails_clone_phase_witness :
    cloneClonePhase cloneEnvTaskErr instBadNet false [] =
      (["CloneVM_Task"], .error (.failed (.taskFailed
        "CLONE(vm1) failed with error: disk full Details: NoDiskSpace"))) ∧
    delete_vm delEnvErr "vm1" = (["Destroy_Task"], .completed none) ∧
    cloneNukePhase cloneEnvNukeErr true [] =
      (["PowerOffVM_Task", "Destroy_Task"], .ok ()) ∧
    cloneReconfigPhase cloneEnvNukeErr instHw [] = (["ReconfigVM_Task"], .ok ()) ∧
    delete_vm delEnvOnErr "vm2" = (["PowerOffVM_Task", "Destroy_Task"], .completed none) ∧
    power_on_off_vm powEnvOffErr "vm3" true = (["PowerOffVM_Task"], .completed none) ∧
    clonePowerOnPhase cloneEnvNukeErr instBadNet [] = (["PowerOnVM_Task"], .ok ()) := by
  have h := task_error_only_fails_clone_phase
  exact ⟨h.1 cloneEnvTaskErr instBadNet false tiDiskFull [] rfl rfl rfl,
    h.2.1 delEnvErr "vm1" tiBoom rfl (by decide) rfl rfl,
    h.2.2.2.2.2.1 cloneEnvNukeErr tiBoom tiBoom [] rfl rfl rfl rfl rfl,
    h.2.2.2.2.2.2.1 cloneEnvNukeErr instHw
      { disks := [{ size := 10 }], nics := [{ network := some "net1" }] }
      tiBoom [] rfl rfl rfl rfl rfl,
    h.2.2.2.2.2.2.2.1 delEnvOnErr "vm2" tiBoom tiBoom rfl rfl rfl rfl,
    h.2.2.2.2.2.2.2.2.2.1 powEnvOffErr "vm3" tiBoom rfl rfl rfl,
    h.2.2.2.2.2.2.2.2.2.2 cloneEnvNukeErr instBadNet tiSuccess [] rfl⟩

/-- C3 counterexample.  A clone workflow with a malformed network
configuration (missing netmask) ends failed with `InvalidParameterError`,
yet has already issued two mutating remote calls — the clone and the
power-on — contradicting the claim that invalid-parameter failures are
raised before any mutating remote call. -/
theorem invalid_parameter_after_mutations_counterexample :
    clone_vm cloneEnvOk instBadNet false =
      (["CloneVM_Task", "PowerOnVM_Task"], .failed (.invalidParameter
        "address and netmask need to be specified for network interface configurations")) := by
  rfl

/-- C3 amended.  The missing-base-image check, the placement check (when
no old VM is being nuked) and the non-unique-snapshot check do run before
any mutating remote call of their workflow; but the malformed network
configuration checks of `clone_vm` — missing credentials and missing
address/netmask alike — run only in the network phase, after the clone
and power-on calls have already been issued (a successful lead-in trace
always contains both), and with `nuke_old` the placement failure can
itself follow the power-off and delete calls of the nuke block. -/
theorem invalid_parameter_timing :
    (∀ (env : CloneEnv) (inst : Instance) (nuke : Bool),
      env.base.findBaseVm = none →
      clone_vm env inst nuke = ([], .failed (.invalidParameter
        ("base VM " ++ inst.base_vm_name ++
         " not found, check the cloud.base_vm_name property for " ++ inst.vm_name)))) ∧
    (∀ (env : CloneEnv) (inst : Instance) (base : BaseVmView),
      inst.datastore = none →
      get_base_vm env.base inst.datastore_filter inst.cluster = .ok (some base) →
      (inst.placement = "random" ∨ inst.placement = "most-space") →
      (∀ d ∈ base.available_datastores, d.freeSpace ≤ base.size) →
      clone_vm env inst false = ([], .failed (.invalidParameter
        "no suitable datastore found. Are they all low on space?"))) ∧
    (∀ (env : RevertEnv) (vm_name nm : String),
      env.vmFound = true →
      env.matchingSnapshots ≠ 1 →
      revert_to_snapshot env vm_name (some nm) false =
        ([], .failed (.invalidParameter
          "there must be one, and only one, snapshot with the name"))) ∧
    (∀ (env : CloneEnv) (inst : Instance) (nuke : Bool) (cfg : NetworkCfg)
       (tr0 : List String),
      cloneLeadIn env inst nuke [] = (tr0, .ok ()) →
      inst.network = some cfg →
      ¬ (truthyS inst.username && truthyS inst.password) = true →
      clone_vm env inst nuke = (tr0, .failed (.invalidParameter
        "cloud.username and cloud.password need to be specified for network interface setup"))) ∧
    (∀ (env : CloneEnv) (inst : Instance) (nuke : Bool) (cfg : NetworkCfg)
       (tr0 : List String),
      cloneLeadIn env inst nuke [] = (tr0, .ok ()) →
      inst.network = some cfg →
      (truthyS inst.username && truthyS inst.password) = true →
      (∃ i ∈ cfg.interfaces, i.address = none ∨ i.netmask = none) →
      clone_vm env inst nuke = (tr0, .failed (.invalidParameter
        "address and netmask need to be specified for network interface configurations"))) ∧
    (∀ (env : CloneEnv) (inst : Instance) (nuke : Bool) (tr0 : List String),
      cloneLeadIn env inst nuke [] = (tr0, .ok ()) →
      "CloneVM_Task" ∈ tr0 ∧ "PowerOnVM_Task" ∈ tr0) ∧
    (∀ (env : CloneEnv) (inst : Instance) (base : BaseVmView) (i j : TaskInfo),
      env.existingClone = some "poweredOn" →
      waitDone env.powerOffTask = some i →
      waitDone env.deleteTask = some j →
      inst.datastore = none →
      get_base_vm env.base inst.datastore_filter inst.cluster = .ok (some base) →
      (inst.placement = "random" ∨ inst.placement = "most-space") →
      (∀ d ∈ base.available_datastores, d.freeSpace ≤ base.size) →
      clone_vm env inst true = (["PowerOffVM_Task", "Destroy_Task"],
        .failed (.invalidParameter "no suitable datastore found. Are they all low on space?"))) := by
  refine ⟨?_, ?_, ?_, ?_, ?_, ?_, ?_⟩
  · intro env inst nuke hnone
    unfold clone_vm cloneLeadIn wfOfExcept get_base_vm
    rw [hnone]
    rfl
  · intro env inst base hds hbase hstrat hno
    have herr := place_vm_no_candidates env.choice inst.placement base hstrat hno
    unfold clone_vm cloneLeadIn cloneNukePhase clonePlacePhase
    rw [hbase, hds]
    simp only [wfOfExcept, wfBind, wfPure, herr, Except.map]
    rfl
  · intro env vm_name nm hfound hms
    have h1 : ¬ ¬ env.vmFound = true := by simp [hfound]
    unfold revert_to_snapshot
    rw [if_neg h1, if_pos hms]
    rfl
  · intro env inst nuke cfg tr0 hlead hnet hcred
    unfold clone_vm
    have h1 : wfBind (cloneLeadIn env inst nuke) (fun _ => cloneTail env inst) [] =
        cloneTail env inst tr0 := by
      unfold wfBind
      rw [hlead]
    rw [h1]
    unfold cloneTail cloneNetworkPhase
    rw [hnet]
    simp only [wfBind]
    rw [if_pos hcred]
    rfl
  · intro env inst nuke cfg tr0 hlead hnet hcred hbad
    unfold clone_vm
    have h1 : wfBind (cloneLeadIn env inst nuke) (fun _ => cloneTail env inst) [] =
        cloneTail env inst tr0 := by
      unfold wfBind
      rw [hlead]
    rw [h1]
    unfold cloneTail cloneNetworkPhase
    rw [hnet]
    simp only [wfBind]
    rw [if_neg (show ¬ ¬ (truthyS inst.username && truthyS inst.password) = true from
      fun hc => hc hcred)]
    rw [buildIfScript_bad cfg.interfaces "" hbad]
    rfl
  · intro env inst nuke tr0 hlead
    exact cloneLeadIn_ok_mutations env inst nuke tr0 hlead
  · intro env inst base i j hex hwo hwd hds hbase hstrat hno
    have herr := place_vm_no_candidates env.choice inst.placement base hstrat hno
    have hnuke := cloneNukePhase_poweredOn env i j [] hex hwo hwd
    unfold clone_vm cloneLeadIn clonePlacePhase
    rw [hbase, hds]
    simp only [wfOfExcept, wfBind, wfPure, herr, Except.map, hnuke]
    rfl

theorem invalid_parameter_timing_witness :
    clone_vm { cloneEnvOk with base := { baseEnvOk with findBaseVm := none } }
        instBadNet false =
      ([], .failed (.invalidParameter
        "base VM base1 not found, check the cloud.base_vm_name property for vm1")) ∧
    clone_vm cloneEnvOk { instBadNet with username := none } false =
      (["CloneVM_Task", "PowerOnVM_Task"], .failed (.invalidParameter
        "cloud.username and cloud.password need to be specified for network interface setup")) ∧
    clone_vm cloneEnvOk instBadNet false =
      (["CloneVM_Task", "PowerOnVM_Task"], .failed (.invalidParameter
        "address and netmask need to be specified for network interface configurations")) ∧
    ("CloneVM_Task" ∈ (["CloneVM_Task", "PowerOnVM_Task"] : List String) ∧
     "PowerOnVM_Task" ∈ (["CloneVM_Task", "PowerOnVM_Task"] : List String)) ∧
    clone_vm cloneEnvNukeNoRoom instNoDs true =
      (["PowerOffVM_Task", "Destroy_Task"], .failed (.invalidParameter
        "no suitable datastore found. Are they all low on space?")) := by
  have h := invalid_parameter_timing
  refine ⟨?_, ?_, ?_, ?_, ?_⟩
  · exact h.1
      { cloneEnvOk with base := { baseEnvOk with findBaseVm := none } } instBadNet false rfl
  · exact h.2.2.2.1 cloneEnvOk
      { instBadNet with username := none } false
      { interfaces := [ifBad] } ["CloneVM_Task", "PowerOnVM_Task"] rfl rfl (by decide)
  · exact h.2.2.2.2.1 cloneEnvOk instBadNet false { interfaces := [ifBad] }
      ["CloneVM_Task", "PowerOnVM_Task"] rfl rfl (by decide) ⟨ifBad, by decide, Or.inr rfl⟩
  · exact h.2.2.2.2.2.1 cloneEnvOk instBadNet false ["CloneVM_Task", "PowerOnVM_Task"] rfl
  · exact h.2.2.2.2.2.2 cloneEnvNukeNoRoom instNoDs ⟨50, [⟨"ds1", 10⟩]⟩ tiBoom tiBoom
      rfl rfl rfl rfl rfl (Or.inl rfl) (by decide)

theorem waitToolsGo_timeout (t0 : Int) :
    ∀ (stream : List (GuestSnap × Int)),
      (∀ p ∈ stream, guest_tool_running p.1 = false) →
      (∃ p ∈ stream, p.2 - t0 > 60) →
      waitToolsGo t0 stream =
        .error (.failed (.timeout "guest tools have not started in 60 seconds")) := by
  intro stream
  induction stream with
  | nil =>
    rintro _ ⟨p, hp, _⟩
    cases hp
  | cons q rest ih =>
    obtain ⟨v, now⟩ := q
    intro hnever hlate
    unfold waitToolsGo
    by_cases hq : now - t0 > 60
    · rw [if_pos hq]
    · have hv : guest_tool_running v = false :=
        hnever (v, now) (List.mem_cons_self _ _)
      rw [if_neg hq, if_neg (show ¬ guest_tool_running v = true by rw [hv]; decide)]
      apply ih
      · intro p hp
        exact hnever p (List.mem_cons_of_mem _ hp)
      · obtain ⟨p, hp, hpl⟩ := hlate
        rcases List.mem_cons.1 hp with heq | hrest
        · rw [heq] at hpl
          exact absurd hpl hq
        · exact ⟨p, hrest, hpl⟩

theorem waitTools_timeout (t0 : Int) (initial : GuestSnap)
    (stream : List (GuestSnap × Int))
    (hinit : guest_tool_running initial = false)
    (hnever : ∀ p ∈ stream, guest_tool_running p.1 = false)
    (hlate : ∃ p ∈ stream, p.2 - t0 > 60) :
    waitTools t0 initial stream =
      .error (.failed (.timeout "guest tools have not started in 60 seconds")) := by
  unfold waitTools
  rw [if_neg (show ¬ guest_tool_running initial = true by rw [hinit]; decide)]
  exact waitToolsGo_timeout t0 stream hnever hlate

/-- C8.  A clone workflow with a network configuration whose
guest-tooling predicate never becomes true fails with the timeout error
once a resumption observes more than 60 seconds elapsed since the wait
started, regardless of how the earlier phases were driven. -/
theorem clone_vm_guest_tools_timeout (env : CloneEnv) (inst : Instance) (nuke : Bool)
    (cfg : NetworkCfg) (tr0 : List String) (s : String)
    (hlead : cloneLeadIn env inst nuke [] = (tr0, .ok ()))
    (hnet : inst.network = some cfg)
    (hcred : (truthyS inst.username && truthyS inst.password) = true)
    (hscript : buildIfScript "" cfg.interfaces = .ok s)
    (hinit : guest_tool_running env.toolInitial = false)
    (hnever : ∀ p ∈ env.toolWait, guest_tool_running p.1 = false)
    (hlate : ∃ p ∈ env.toolWait, p.2 - env.toolWaitStart > 60) :
    clone_vm env inst nuke =
      (tr0, .failed (.timeout "guest tools have not started in 60 seconds")) := by
  have hwt := waitTools_timeout env.toolWaitStart env.toolInitial env.toolWait
    hinit hnever hlate
  unfold clone_vm
  have h1 : wfBind (cloneLeadIn env inst nuke) (fun _ => cloneTail env inst) [] =
      cloneTail env inst tr0 := by
    unfold wfBind
    rw [hlead]
  rw [h1]
  unfold cloneTail cloneNetworkPhase
  rw [hnet]
  simp only [wfBind]
  rw [if_neg (not_not_intro hcred)]
  simp only [wfOfExcept, hscript, wfPure, hwt, Except.map]
  rfl

theorem clone_vm_guest_tools_timeout_witness :
    clone_vm cloneEnvOk instGoodNet false =
      (["CloneVM_Task", "PowerOnVM_Task"],
        .failed (.timeout "guest tools have not started in 60 seconds")) := by
  exact clone_vm_guest_tools_timeout cloneEnvOk instGoodNet false
    { interfaces := [ifGood], gateway := some "192.168.2.1" }
    ["CloneVM_Task", "PowerOnVM_Task"]
    "ifconfig eth0 192.168.2.2 netmask 255.255.255.0"
    rfl rfl (by decide) rfl rfl (by decide)
    ⟨(gsNotRunning, 1070), by decide, by decide⟩

/-! #### Lemmas about the scheduler loop -/

theorem refreshTasks_eq_map (oracle : Nat → Nat) (ls : List Live) :
    refreshTasks oracle ls = ls.map (refreshLive oracle) := by
  unfold refreshTasks
  split
  · rfl
  · rename_i hany
    induction ls with
    | nil => rfl
    | cons l rest ih =>
      simp only [List.any_cons, Bool.or_eq_true] at hany
      push_neg at hany
      obtain ⟨l1, l2, l3, l4, l5⟩ := l
      have h4 : l4 = none := by
        cases l4 with
        | none => rfl
        | some t => exact absurd rfl hany.1
      subst h4
      rw [List.map_cons]
      have ih' := ih (by
        intro hc
        exact hany.2 hc)
      rw [← ih']
      rfl

theorem refreshLive_addr (oracle : Nat → Nat) (l : Live) :
    (refreshLive oracle l).addr = l.addr := rfl

theorem map_addr_refresh (oracle : Nat → Nat) (ls : List Live) :
    (ls.map (refreshLive oracle)).map Live.addr = ls.map Live.addr := by
  rw [List.map_map]
  rfl

theorem survivor_addr_sublist :
    ∀ (ls : List Live),
      ((ls.filterMap stepSurvivor).map Live.addr).Sublist (ls.map Live.addr) := by
  intro ls
  induction ls with
  | nil => exact List.Sublist.refl _
  | cons l rest ih =>
    rw [List.filterMap_cons]
    cases hs : stepSurvivor l with
    | none =>
      rw [List.map_cons]
      exact ih.cons _
    | some l' =>
      have haddr : l'.addr = l.addr := by
        unfold stepSurvivor at hs
        split at hs
        · cases hs; rfl
        · cases hs
      rw [List.map_cons, List.map_cons, haddr]
      exact ih.cons₂ _

theorem dropped_addr_not_in_survivors {ls : List Live} {l : Live}
    (hnodup : (ls.map Live.addr).Nodup) (hl : l ∈ ls) (hs : stepSurvivor l = none) :
    l.addr ∉ (ls.filterMap stepSurvivor).map Live.addr := by
  induction ls with
  | nil => cases hl
  | cons x rest ih =>
    rw [List.map_cons, List.nodup_cons] at hnodup
    rcases List.mem_cons.1 hl with rfl | hmem
    · rw [List.filterMap_cons, hs]
      intro hc
      exact hnodup.1 (List.Sublist.mem hc (survivor_addr_sublist rest))
    · rw [List.filterMap_cons]
      cases hx : stepSurvivor x with
      | none => exact ih hnodup.2 hmem
      | some x' =>
        rw [List.map_cons]
        intro hc
        rcases List.mem_cons.1 hc with heq | hrest
        · have hxaddr : x'.addr = x.addr := by
            unfold stepSurvivor at hx
            split at hx
            · cases hx; rfl
            · cases hx
          rw [hxaddr] at heq
          exact hnodup.1 (heq ▸ List.mem_map_of_mem Live.addr hmem)
        · exact ih hnodup.2 hmem hrest

theorem resumeAll_ok :
    ∀ (ls : List Live) (h : Heap),
      (∀ l ∈ ls, l.gstep l.st l.task ≠ .interrupt) →
      ∃ h', resumeAll ls h = .ok (ls.filterMap stepSurvivor) h' ∧
        (∀ a, a ∉ ls.map Live.addr → h' a = h a) ∧
        ((ls.map Live.addr).Nodup → ∀ l ∈ ls, h' l.addr = stepCtx l (h l.addr)) := by
  intro ls
  induction ls with
  | nil =>
    intro h _
    exact ⟨h, rfl, fun _ _ => rfl, fun _ l hl => absurd hl (List.not_mem_nil l)⟩
  | cons l rest ih =>
    intro h hni
    have hnihead := hni l (List.mem_cons_self _ _)
    have hnitail : ∀ x ∈ rest, x.gstep x.st x.task ≠ .interrupt :=
      fun x hx => hni x (List.mem_cons_of_mem _ hx)
    cases hstep : l.gstep l.st l.task with
    | interrupt => exact absurd hstep hnihead
    | yields s' t ws =>
      obtain ⟨h', heq, hframe, hvals⟩ :=
        ih (heapSet h l.addr (applyWrites ws (h l.addr))) hnitail
      refine ⟨h', ?_, ?_, ?_⟩
      · unfold resumeAll
        simp only [hstep]
        rw [heq, List.filterMap_cons]
        simp only [stepSurvivor, hstep]
      · intro a ha
        rw [List.map_cons, List.mem_cons] at ha
        push_neg at ha
        rw [hframe a ha.2]
        unfold heapSet
        rw [if_neg ha.1]
      · intro hnodup x hx
        rw [List.map_cons, List.nodup_cons] at hnodup
        rcases List.mem_cons.1 hx with rfl | hmem
        · rw [hframe x.addr hnodup.1]
          unfold heapSet
          rw [if_pos rfl]
          unfold stepCtx
          rw [hstep]
        · have hne : x.addr ≠ l.addr := by
            intro hc
            exact hnodup.1 (hc ▸ List.mem_map_of_mem Live.addr hmem)
          rw [hvals hnodup.2 x hmem]
          unfold heapSet
          rw [if_neg hne]
    | stops ws =>
      obtain ⟨h', heq, hframe, hvals⟩ :=
        ih (heapSet h l.addr (applyWrites ws (h l.addr))) hnitail
      refine ⟨h', ?_, ?_, ?_⟩
      · unfold resumeAll
        simp only [hstep]
        rw [heq, List.filterMap_cons]
        simp only [stepSurvivor, hstep]
      · intro a ha
        rw [List.map_cons, List.mem_cons] at ha
        push_neg at ha
        rw [hframe a ha.2]
        unfold heapSet
        rw [if_neg ha.1]
      · intro hnodup x hx
        rw [List.map_cons, List.nodup_cons] at hnodup
        rcases List.mem_cons.1 hx with rfl | hmem
        · rw [hframe x.addr hnodup.1]
          unfold heapSet
          rw [if_pos rfl]
          unfold stepCtx
          rw [hstep]
        · have hne : x.addr ≠ l.addr := by
            intro hc
            exact hnodup.1 (hc ▸ List.mem_map_of_mem Live.addr hmem)
          rw [hvals hnodup.2 x hmem]
          unfold heapSet
          rw [if_neg hne]
    | raises e ws =>
      obtain ⟨h', heq, hframe, hvals⟩ :=
        ih (heapSet h l.addr (assocSet "error" e (applyWrites ws (h l.addr)))) hnitail
      refine ⟨h', ?_, ?_, ?_⟩
      · unfold resumeAll
        simp only [hstep]
        rw [heq, List.filterMap_cons]
        simp only [stepSurvivor, hstep]
      · intro a ha
        rw [List.map_cons, List.mem_cons] at ha
        push_neg at ha
        rw [hframe a ha.2]
        unfold heapSet
        rw [if_neg ha.1]
      · intro hnodup x hx
        rw [List.map_cons, List.nodup_cons] at hnodup
        rcases List.mem_cons.1 hx with rfl | hmem
        · rw [hframe x.addr hnodup.1]
          unfold heapSet
          rw [if_pos rfl]
          unfold stepCtx
          rw [hstep]
        · have hne : x.addr ≠ l.addr := by
            intro hc
            exact hnodup.1 (hc ▸ List.mem_map_of_mem Live.addr hmem)
          rw [hvals hnodup.2 x hmem]
          unfold heapSet
          rw [if_neg hne]

theorem orchLoop_nil (oracle : Nat → Nat) (h : Heap) :
    ∀ fuel, orchLoop oracle fuel [] h = some (.finished h) := by
  intro fuel
  cases fuel with
  | zero => rfl
  | succ n => rfl

theorem stepCtx_yields {l : Live} {s' t : Nat} {ws : List (String × String)}
    (hg : l.gstep l.st l.task = .yields s' t ws) (c : Ctx) :
    stepCtx l c = applyWrites ws c := by
  unfold stepCtx
  rw [hg]

theorem stepCtx_stops {l : Live} {ws : List (String × String)}
    (hg : l.gstep l.st l.task = .stops ws) (c : Ctx) :
    stepCtx l c = applyWrites ws c := by
  unfold stepCtx
  rw [hg]

theorem stepCtx_raises {l : Live} {e : String} {ws : List (String × String)}
    (hg : l.gstep l.st l.task = .raises e ws) (c : Ctx) :
    stepCtx l c = assocSet "error" e (applyWrites ws c) := by
  unfold stepCtx
  rw [hg]

theorem stepSurvivor_yields {l : Live} {s' t : Nat} {ws : List (String × String)}
    (hg : l.gstep l.st l.task = .yields s' t ws) :
    stepSurvivor l = some { l with st := s', task := some t } := by
  unfold stepSurvivor
  rw [hg]

theorem stepSurvivor_stops {l : Live} {ws : List (String × String)}
    (hg : l.gstep l.st l.task = .stops ws) :
    stepSurvivor l = none := by
  unfold stepSurvivor
  rw [hg]

theorem stepSurvivor_raises {l : Live} {e : String} {ws : List (String × String)}
    (hg : l.gstep l.st l.task = .raises e ws) :
    stepSurvivor l = none := by
  unfold stepSurvivor
  rw [hg]

/-- The core correspondence: when every live workflow, driven alone
against the oracle, reaches a terminal outcome (not an interrupt) within
the fuel, the scheduler loop finishes, leaves foreign addresses untouched,
and stores at every workflow's copy address exactly the context its
single-workflow run produces. -/
theorem orchLoop_spec (oracle : Nat → Nat) :
    ∀ (fuel : Nat) (ls : List Live) (h : Heap),
      (ls.map Live.addr).Nodup →
      (∀ l ∈ ls, ∃ c, (runSingle oracle l.gstep fuel l.st l.task
        (h l.addr)).bind SingleOut.ctxOf = some c) →
      ∃ h', orchLoop oracle fuel ls h = some (.finished h') ∧
        (∀ a, a ∉ ls.map Live.addr → h' a = h a) ∧
        (∀ l ∈ ls, (runSingle oracle l.gstep fuel l.st l.task
          (h l.addr)).bind SingleOut.ctxOf = some (h' l.addr)) := by
  intro fuel
  induction fuel with
  | zero =>
    intro ls h _ hterm
    cases ls with
    | nil => exact ⟨h, rfl, fun _ _ => rfl, fun l hl => absurd hl (List.not_mem_nil l)⟩
    | cons l rest =>
      obtain ⟨c, hc⟩ := hterm l (List.mem_cons_self _ _)
      cases hc
  | succ fuel ih =>
    intro ls h hnodup hterm
    cases hcase : ls with
    | nil => exact ⟨h, rfl, fun _ _ => rfl, fun l hl => absurd hl (List.not_mem_nil l)⟩
    | cons l0 rest0 =>
      rw [← hcase]
      have hne : ls ≠ [] := by rw [hcase]; intro hc; cases hc
      have hnonempty : ¬ ls.isEmpty = true := by
        rw [List.isEmpty_iff]
        exact hne
      have hni1 : ∀ l1 ∈ ls.map (refreshLive oracle),
          l1.gstep l1.st l1.task ≠ .interrupt := by
        intro l1 hl1
        obtain ⟨l, hl, rfl⟩ := List.mem_map.1 hl1
        obtain ⟨c, hc⟩ := hterm l hl
        intro hint
        have hint' : l.gstep l.st (l.task.map oracle) = .interrupt := hint
        unfold runSingle at hc
        rw [hint'] at hc
        cases hc
      obtain ⟨h2, heq2, hframe2, hvals2⟩ := resumeAll_ok (ls.map (refreshLive oracle)) h hni1
      have hnodup1 : ((ls.map (refreshLive oracle)).map Live.addr).Nodup := by
        rw [map_addr_refresh]
        exact hnodup
      have hvals2' := hvals2 hnodup1
      have hunfold : orchLoop oracle (fuel + 1) ls h =
          (if ls.isEmpty then some (.finished h) else
            match resumeAll (refreshTasks oracle ls) h with
            | .ok ls' h' => orchLoop oracle fuel ls' h'
            | .interrupted => some .interrupted) := rfl
      have hloopstep : orchLoop oracle (fuel + 1) ls h =
          orchLoop oracle fuel ((ls.map (refreshLive oracle)).filterMap stepSurvivor) h2 := by
        rw [hunfold, if_neg hnonempty, refreshTasks_eq_map, heq2]
      have hnodup2 : (((ls.map (refreshLive oracle)).filterMap stepSurvivor).map
          Live.addr).Nodup :=
        (survivor_addr_sublist _).nodup hnodup1
      have hterm2 : ∀ l2 ∈ (ls.map (refreshLive oracle)).filterMap stepSurvivor,
          ∃ c, (runSingle oracle l2.gstep fuel l2.st l2.task
            (h2 l2.addr)).bind SingleOut.ctxOf = some c := by
        intro l2 hl2
        obtain ⟨l1, hl1, hs⟩ := List.mem_filterMap.1 hl2
        obtain ⟨l, hl, rfl⟩ := List.mem_map.1 hl1
        obtain ⟨c, hc⟩ := hterm l hl
        unfold runSingle at hc
        cases hstep : l.gstep l.st (l.task.map oracle) with
        | yields s' t ws =>
          rw [hstep] at hc
          have hstep1 : (refreshLive oracle l).gstep (refreshLive oracle l).st
              (refreshLive oracle l).task = .yields s' t ws := hstep
          rw [stepSurvivor_yields hstep1] at hs
          have hsurv : { refreshLive oracle l with st := s', task := some t } = l2 := by
            cases hs
            rfl
          have hgstep : l2.gstep = l.gstep := (congrArg Live.gstep hsurv).symm
          have hst2 : l2.st = s' := (congrArg Live.st hsurv).symm
          have htask2 : l2.task = some t := (congrArg Live.task hsurv).symm
          have haddr2 : l2.addr = l.addr := (congrArg Live.addr hsurv).symm
          have hctx : h2 l2.addr = applyWrites ws (h l.addr) := by
            rw [haddr2]
            have hv : h2 (refreshLive oracle l).addr =
                stepCtx (refreshLive oracle l) (h (refreshLive oracle l).addr) :=
              hvals2' (refreshLive oracle l) hl1
            rw [stepCtx_yields hstep1] at hv
            exact hv
          refine ⟨c, ?_⟩
          rw [hgstep, hst2, htask2, hctx]
          exact hc
        | stops ws =>
          exfalso
          have hstep1 : (refreshLive oracle l).gstep (refreshLive oracle l).st
              (refreshLive oracle l).task = .stops ws := hstep
          rw [stepSurvivor_stops hstep1] at hs
          cases hs
        | raises e ws =>
          exfalso
          have hstep1 : (refreshLive oracle l).gstep (refreshLive oracle l).st
              (refreshLive oracle l).task = .raises e ws := hstep
          rw [stepSurvivor_raises hstep1] at hs
          cases hs
        | interrupt =>
          exfalso
          exact hni1 (refreshLive oracle l) hl1 hstep
      obtain ⟨h', heqloop, hframe', hvals'⟩ := ih _ h2 hnodup2 hterm2
      refine ⟨h', ?_, ?_, ?_⟩
      · rw [hloopstep, heqloop]
      · intro a ha
        have ha1 : a ∉ (ls.map (refreshLive oracle)).map Live.addr := by
          rw [map_addr_refresh]
          exact ha
        have ha2 : a ∉ ((ls.map (refreshLive oracle)).filterMap stepSurvivor).map
            Live.addr := by
          intro hc
          exact ha1 (List.Sublist.mem hc (survivor_addr_sublist _))
        rw [hframe' a ha2, hframe2 a ha1]
      · intro l hl
        have hl1 : refreshLive oracle l ∈ ls.map (refreshLive oracle) :=
          List.mem_map_of_mem _ hl
        unfold runSingle
        cases hstep : l.gstep l.st (l.task.map oracle) with
        | yields s' t ws =>
          have hstep1 : (refreshLive oracle l).gstep (refreshLive oracle l).st
              (refreshLive oracle l).task = .yields s' t ws := hstep
          have hsurv : stepSurvivor (refreshLive oracle l) =
              some { refreshLive oracle l with st := s', task := some t } :=
            stepSurvivor_yields hstep1
          have hl2 : { refreshLive oracle l with st := s', task := some t } ∈
              (ls.map (refreshLive oracle)).filterMap stepSurvivor :=
            List.mem_filterMap.2 ⟨refreshLive oracle l, hl1, hsurv⟩
          have hv := hvals' _ hl2
          have hctx : h2 l.addr = applyWrites ws (h l.addr) := by
            have hv2 : h2 (refreshLive oracle l).addr =
                stepCtx (refreshLive oracle l) (h (refreshLive oracle l).addr) :=
              hvals2' (refreshLive oracle l) hl1
            rw [stepCtx_yields hstep1] at hv2
            exact hv2
          have hv' : (runSingle oracle l.gstep fuel s' (some t)
              (h2 l.addr)).bind SingleOut.ctxOf = some (h' l.addr) := hv
          rw [hctx] at hv'
          exact hv'
        | stops ws =>
          have hstep1 : (refreshLive oracle l).gstep (refreshLive oracle l).st
              (refreshLive oracle l).task = .stops ws := hstep
          have hsurv : stepSurvivor (refreshLive oracle l) = none :=
            stepSurvivor_stops hstep1
          have hdrop : (refreshLive oracle l).addr ∉
              ((ls.map (refreshLive oracle)).filterMap stepSurvivor).map Live.addr :=
            dropped_addr_not_in_survivors hnodup1 hl1 hsurv
          have hdrop' : l.addr ∉
              ((ls.map (refreshLive oracle)).filterMap stepSurvivor).map Live.addr := hdrop
          have hctx : h2 l.addr = applyWrites ws (h l.addr) := by
            have hv2 : h2 (refreshLive oracle l).addr =
                stepCtx (refreshLive oracle l) (h (refreshLive oracle l).addr) :=
              hvals2' (refreshLive oracle l) hl1
            rw [stepCtx_stops hstep1] at hv2
            exact hv2
          show (some (SingleOut.finished (applyWrites ws (h l.addr)))).bind
            SingleOut.ctxOf = some (h' l.addr)
          rw [hframe' l.addr hdrop', hctx]
          rfl
        | raises e ws =>
          have hstep1 : (refreshLive oracle l).gstep (refreshLive oracle l).st
              (refreshLive oracle l).task = .raises e ws := hstep
          have hsurv : stepSurvivor (refreshLive oracle l) = none :=
            stepSurvivor_raises hstep1
          have hdrop : (refreshLive oracle l).addr ∉
              ((ls.map (refreshLive oracle)).filterMap stepSurvivor).map Live.addr :=
            dropped_addr_not_in_survivors hnodup1 hl1 hsurv
          have hdrop' : l.addr ∉
              ((ls.map (refreshLive oracle)).filterMap stepSurvivor).map Live.addr := hdrop
          have hctx : h2 l.addr = assocSet "error" e (applyWrites ws (h l.addr)) := by
            have hv2 : h2 (refreshLive oracle l).addr =
                stepCtx (refreshLive oracle l) (h (refreshLive oracle l).addr) :=
              hvals2' (refreshLive oracle l) hl1
            rw [stepCtx_raises hstep1] at hv2
            exact hv2
          show (some (SingleOut.failed e (assocSet "error" e (applyWrites ws
            (h l.addr))))).bind SingleOut.ctxOf = some (h' l.addr)
          rw [hframe' l.addr hdrop', hctx]
          rfl
        | interrupt =>
          exfalso
          exact hni1 (refreshLive oracle l) hl1 hstep

theorem addrSeq_ge (fresh : Nat) : ∀ (n : Nat) (a : Nat), a ∈ addrSeq fresh n → fresh ≤ a := by
  intro n
  induction n generalizing fresh with
  | zero => intro a ha; cases ha
  | succ m ih =>
    intro a ha
    rcases List.mem_cons.1 ha with rfl | hrest
    · exact le_refl a
    · exact le_of_lt (lt_of_lt_of_le (Nat.lt_succ_self fresh) (ih (fresh + 1) a hrest))

theorem addrSeq_nodup (fresh : Nat) : ∀ (n : Nat), (addrSeq fresh n).Nodup := by
  intro n
  induction n generalizing fresh with
  | zero => exact List.nodup_nil
  | succ m ih =>
    rw [addrSeq, List.nodup_cons]
    refine ⟨?_, ih (fresh + 1)⟩
    intro hmem
    exact absurd (addrSeq_ge (fresh + 1) m fresh hmem) (Nat.not_succ_le_self fresh)

theorem initRun_spec (operation : Ctx → Gen) :
    ∀ (instances : List (String × Nat)) (fresh : Nat) (h : Heap),
      (∀ p ∈ instances, p.2 < fresh) →
      ∃ ls h0, initRun operation fresh instances h = (ls, h0) ∧
        ls.length = instances.length ∧
        (ls.map Live.addr = addrSeq fresh instances.length) ∧
        (∀ i (hi : i < instances.length) (hl : i < ls.length),
          (ls.get ⟨i, hl⟩).id = (instances.get ⟨i, hi⟩).1 ∧
          (ls.get ⟨i, hl⟩).addr = fresh + i ∧
          (ls.get ⟨i, hl⟩).task = none ∧
          (ls.get ⟨i, hl⟩).gstep = (operation (h (instances.get ⟨i, hi⟩).2)).step ∧
          (ls.get ⟨i, hl⟩).st = (operation (h (instances.get ⟨i, hi⟩).2)).start ∧
          h0 (fresh + i) = h (instances.get ⟨i, hi⟩).2) ∧
        (∀ a, a < fresh → h0 a = h a) := by
  intro instances
  induction instances with
  | nil =>
    intro fresh h _
    refine ⟨[], h, rfl, rfl, rfl, ?_, fun a _ => rfl⟩
    intro i hi
    cases hi
  | cons p rest ih =>
    intro fresh h hlow
    have hlowp : p.2 < fresh := hlow p (List.mem_cons_self _ _)
    have hlowrest : ∀ q ∈ rest, q.2 < fresh + 1 :=
      fun q hq => lt_of_lt_of_le (hlow q (List.mem_cons_of_mem _ hq)) (Nat.le_succ fresh)
    obtain ⟨ls', h0', heq', hlen', haddrs', hspec', hframe'⟩ :=
      ih (fresh + 1) (heapSet h fresh (h p.2)) hlowrest
    refine ⟨{ id := p.1,
              gstep := (operation (h p.2)).step,
              st := (operation (h p.2)).start,
              task := none,
              addr := fresh } :: ls', h0', ?_, ?_, ?_, ?_, ?_⟩
    · simp only [initRun]
      rw [heq']
    · rw [List.length_cons, hlen', List.length_cons]
    · rw [List.map_cons, List.length_cons, addrSeq, haddrs']
    · intro i hi hl
      cases i with
      | zero =>
        refine ⟨rfl, (Nat.add_zero fresh).symm, rfl, rfl, rfl, ?_⟩
        rw [Nat.add_zero]
        have h1 : h0' fresh = heapSet h fresh (h p.2) fresh :=
          hframe' fresh (Nat.lt_succ_self fresh)
        rw [h1]
        unfold heapSet
        rw [if_pos rfl]
        rfl
      | succ j =>
        have hj : j < rest.length := Nat.lt_of_succ_lt_succ hi
        have hjl : j < ls'.length := by rw [hlen']; exact hj
        obtain ⟨s1, s2, s3, s4, s5, s6⟩ := hspec' j hj hjl
        have hq : rest.get ⟨j, hj⟩ ∈ rest := List.get_mem _ _ _
        have hqlow : (rest.get ⟨j, hj⟩).2 < fresh :=
          hlow _ (List.mem_cons_of_mem _ hq)
        have hheap : heapSet h fresh (h p.2) (rest.get ⟨j, hj⟩).2 =
            h (rest.get ⟨j, hj⟩).2 := by
          unfold heapSet
          rw [if_neg (Nat.ne_of_lt hqlow)]
        have harith : fresh + 1 + j = fresh + (j + 1) := by omega
        refine ⟨s1, ?_, s3, ?_, ?_, ?_⟩
        · show (ls'.get ⟨j, hjl⟩).addr = fresh + (j + 1)
          rw [s2, harith]
        · show (ls'.get ⟨j, hjl⟩).gstep = (operation (h ((rest.get ⟨j, hj⟩)).2)).step
          rw [s4, hheap]
        · show (ls'.get ⟨j, hjl⟩).st = (operation (h ((rest.get ⟨j, hj⟩)).2)).start
          rw [s5, hheap]
        · show h0' (fresh + (j + 1)) = h ((rest.get ⟨j, hj⟩)).2
          rw [← harith, s6, hheap]
    · intro a ha
      have h1 : h0' a = heapSet h fresh (h p.2) a :=
        hframe' a (lt_of_lt_of_le ha (Nat.le_succ fresh))
      rw [h1]
      unfold heapSet
      rw [if_neg (Nat.ne_of_lt ha)]

theorem allocOut_map_fst : ∀ (instances : List (String × Nat)) (fresh : Nat),
    (allocOut fresh instances).map Prod.fst = instances.map Prod.fst := by
  intro instances
  induction instances with
  | nil => intro fresh; rfl
  | cons p rest ih =>
    intro fresh
    rw [allocOut, List.map_cons, List.map_cons, ih (fresh + 1)]

theorem allocOut_snd_ge : ∀ (instances : List (String × Nat)) (fresh : Nat),
    ∀ q ∈ allocOut fresh instances, fresh ≤ q.2 := by
  intro instances
  induction instances with
  | nil => intro fresh q hq; cases hq
  | cons p rest ih =>
    intro fresh q hq
    rcases List.mem_cons.1 hq with rfl | hrest
    · exact le_refl fresh
    · exact le_of_lt (lt_of_lt_of_le (Nat.lt_succ_self fresh) (ih (fresh + 1) q hrest))

theorem runSingle_failed_ctx (oracle : Nat → Nat) (step : Nat → Option Nat → GenOut) :
    ∀ (fuel : Nat) (s : Nat) (last : Option Nat) (ctx : Ctx) (e : String) (c : Ctx),
      runSingle oracle step fuel s last ctx = some (.failed e c) →
      ∃ w, c = assocSet "error" e w := by
  intro fuel
  induction fuel with
  | zero => intro s last ctx e c hc; cases hc
  | succ n ih =>
    intro s last ctx e c hc
    unfold runSingle at hc
    cases hstep : step s (last.map oracle) with
    | yields s' t ws =>
      rw [hstep] at hc
      exact ih s' (some t) (applyWrites ws ctx) e c hc
    | stops ws =>
      rw [hstep] at hc
      cases hc
    | raises e' ws =>
      rw [hstep] at hc
      injection hc with hc
      cases hc
      exact ⟨applyWrites ws ctx, rfl⟩
    | interrupt =>
      rw [hstep] at hc
      cases hc

theorem resumeAll_low_frame (fresh : Nat) :
    ∀ (ls : List Live) (h : Heap) (ls2 : List Live) (h2 : Heap),
      resumeAll ls h = .ok ls2 h2 →
      (∀ l ∈ ls, fresh ≤ l.addr) →
      (∀ a, a < fresh → h2 a = h a) ∧ (∀ l2 ∈ ls2, fresh ≤ l2.addr) := by
  intro ls
  induction ls with
  | nil =>
    intro h ls2 h2 heq _
    cases heq
    exact ⟨fun _ _ => rfl, fun l2 hl2 => absurd hl2 (List.not_mem_nil _)⟩
  | cons l rest ih =>
    intro h ls2 h2 heq hge
    have hgehead := hge l (List.mem_cons_self _ _)
    have hgetail : ∀ x ∈ rest, fresh ≤ x.addr :=
      fun x hx => hge x (List.mem_cons_of_mem _ hx)
    have hlow : ∀ c a, a < fresh → heapSet h l.addr c a = h a := by
      intro c a ha
      unfold heapSet
      rw [if_neg (Nat.ne_of_lt (lt_of_lt_of_le ha hgehead))]
    unfold resumeAll at heq
    cases hstep : l.gstep l.st l.task with
    | yields s' t ws =>
      simp only [hstep] at heq
      cases hre : resumeAll rest (heapSet h l.addr (applyWrites ws (h l.addr))) with
      | interrupted => rw [hre] at heq; cases heq
      | ok ls' h' =>
        rw [hre] at heq
        injection heq with heq1 heq2
        obtain ⟨hf, hg⟩ := ih _ _ _ hre hgetail
        subst heq1
        subst heq2
        constructor
        · intro a ha
          rw [hf a ha]
          exact hlow _ a ha
        · intro l2 hl2
          rcases List.mem_cons.1 hl2 with rfl | hmem
          · exact hgehead
          · exact hg l2 hmem
    | stops ws =>
      simp only [hstep] at heq
      obtain ⟨hf, hg⟩ := ih _ _ _ heq hgetail
      refine ⟨?_, hg⟩
      intro a ha
      rw [hf a ha]
      exact hlow _ a ha
    | raises e ws =>
      simp only [hstep] at heq
      obtain ⟨hf, hg⟩ := ih _ _ _ heq hgetail
      refine ⟨?_, hg⟩
      intro a ha
      rw [hf a ha]
      exact hlow _ a ha
    | interrupt =>
      simp only [hstep] at heq
      cases heq

theorem orchLoop_low_frame (oracle : Nat → Nat) (fresh : Nat) :
    ∀ (fuel : Nat) (ls : List Live) (h h' : Heap),
      orchLoop oracle fuel ls h = some (.finished h') →
      (∀ l ∈ ls, fresh ≤ l.addr) →
      ∀ a, a < fresh → h' a = h a := by
  intro fuel
  induction fuel with
  | zero =>
    intro ls h h' heq _
    unfold orchLoop at heq
    split at heq
    · injection heq with heq
      injection heq with heq
      rw [heq]
      exact fun _ _ => rfl
    · cases heq
  | succ fuel ih =>
    intro ls h h' heq hge
    unfold orchLoop at heq
    split at heq
    · injection heq with heq
      injection heq with heq
      rw [heq]
      exact fun _ _ => rfl
    · have hge1 : ∀ l1 ∈ refreshTasks oracle ls, fresh ≤ l1.addr := by
        rw [refreshTasks_eq_map]
        intro l1 hl1
        obtain ⟨l, hl, rfl⟩ := List.mem_map.1 hl1
        exact hge l hl
      cases hre : resumeAll (refreshTasks oracle ls) h with
      | interrupted =>
        rw [hre] at heq
        injection heq with heq
        cases heq
      | ok ls2 h2 =>
        rw [hre] at heq
        obtain ⟨hf, hg2⟩ := resumeAll_low_frame fresh _ h ls2 h2 hre hge1
        intro a ha
        rw [ih ls2 h2 h' heq hg2 a ha]
        exact hf a ha

/-- C10.  `run_on_instances` never mutates the caller-supplied instance
dicts: every address below `fresh` (where all the caller's dicts live) is
unchanged in the final heap, and the returned mapping points exclusively
at the freshly allocated copies, never at an input dict. -/
theorem run_on_instances_copy_semantics (oracle : Nat → Nat) (operation : Ctx → Gen)
    (fresh fuel : Nat) (instances : List (String × Nat)) (h h' : Heap)
    (out : List (String × Nat))
    (hlow : ∀ p ∈ instances, p.2 < fresh)
    (hrun : run_on_instances oracle operation fresh fuel instances h =
      some (.ok h' out)) :
    (∀ a, a < fresh → h' a = h a) ∧
    out = allocOut fresh instances ∧
    (∀ q ∈ out, fresh ≤ q.2) ∧
    (∀ p ∈ instances, p.2 ∉ out.map Prod.snd) := by
  obtain ⟨ls, h0, heqinit, hlen, haddrs, hspec, hframe0⟩ :=
    initRun_spec operation instances fresh h hlow
  have hrun' : (match orchLoop oracle fuel ls h0 with
      | some (.finished h2) => some (RunResult.ok h2 (allocOut fresh instances))
      | some .interrupted => some RunResult.interrupted
      | none => none) = some (.ok h' out) := by
    rw [← hrun]
    unfold run_on_instances
    rw [heqinit]
  have hge : ∀ l ∈ ls, fresh ≤ l.addr := by
    intro l hl
    exact addrSeq_ge fresh instances.length l.addr
      (haddrs ▸ List.mem_map_of_mem Live.addr hl)
  cases horch : orchLoop oracle fuel ls h0 with
  | none => rw [horch] at hrun'; cases hrun'
  | some r =>
    cases r with
    | interrupted =>
      rw [horch] at hrun'
      injection hrun' with hcon
      cases hcon
    | finished h2 =>
      rw [horch] at hrun'
      injection hrun' with hcon
      injection hcon with hh hout
      have hframe : ∀ a, a < fresh → h' a = h a := by
        intro a ha
        rw [← hh]
        rw [orchLoop_low_frame oracle fresh fuel ls h0 h2 horch hge a ha]
        exact hframe0 a ha
      refine ⟨hframe, hout.symm, ?_, ?_⟩
      · rw [← hout]
        exact allocOut_snd_ge instances fresh
      · intro p hp hmem
        obtain ⟨q, hq, hqeq⟩ := List.mem_map.1 hmem
        have : fresh ≤ q.2 := by
          rw [← hout] at hq
          exact allocOut_snd_ge instances fresh q hq
        rw [hqeq] at this
        exact absurd (hlow p hp) (not_lt.2 this)

theorem run_on_instances_copy_semantics_witness :
    (∀ a, a < 10 → heapExFinal a = heapEx a) ∧
    (∀ q ∈ allocOut 10 [("A", 0), ("B", 1)], 10 ≤ q.2) := by
  obtain ⟨hframe, hout, hge, _⟩ := run_on_instances_copy_semantics (fun t => t) opEx
    10 1 [("A", 0), ("B", 1)] heapEx heapExFinal (allocOut 10 [("A", 0), ("B", 1)])
    (by decide) rfl
  exact ⟨hframe, hge⟩

/-- C6.  The mapping returned by `run_on_instances` has exactly the input
ids, in order — none lost, added or duplicated — and an empty input
returns an empty mapping (with the heap untouched). -/
theorem run_on_instances_preserves_ids (oracle : Nat → Nat) (operation : Ctx → Gen)
    (fresh fuel : Nat) (instances : List (String × Nat)) (h : Heap) :
    (∀ h' out, run_on_instances oracle operation fresh fuel instances h =
        some (.ok h' out) →
      out.map Prod.fst = instances.map Prod.fst) ∧
    run_on_instances oracle operation fresh fuel [] h = some (.ok h []) := by
  constructor
  · intro h' out hrun
    cases heqinit : initRun operation fresh instances h with
    | mk ls h0 =>
      have hrun' : (match orchLoop oracle fuel ls h0 with
          | some (.finished h2) => some (RunResult.ok h2 (allocOut fresh instances))
          | some .interrupted => some RunResult.interrupted
          | none => none) = some (.ok h' out) := by
        rw [← hrun]
        unfold run_on_instances
        rw [heqinit]
      cases horch : orchLoop oracle fuel ls h0 with
      | none => rw [horch] at hrun'; cases hrun'
      | some r =>
        cases r with
        | interrupted =>
          rw [horch] at hrun'
          injection hrun' with hcon
          cases hcon
        | finished h2 =>
          rw [horch] at hrun'
          injection hrun' with hcon
          injection hcon with _ hout
          rw [← hout, allocOut_map_fst]
  · have h1 : run_on_instances oracle operation fresh fuel [] h =
        (match orchLoop oracle fuel [] h with
        | some (.finished h2) => some (RunResult.ok h2 (allocOut fresh []))
        | some .interrupted => some RunResult.interrupted
        | none => none) := rfl
    rw [h1, orchLoop_nil oracle h fuel]
    rfl

theorem run_on_instances_preserves_ids_witness :
    ((allocOut 10 [("A", 0), ("B", 1)]).map Prod.fst =
      ([("A", 0), ("B", 1)] : List (String × Nat)).map Prod.fst) ∧
    run_on_instances (fun t => t) opEx 10 1 [] heapEx = some (.ok heapEx []) := by
  constructor
  · exact (run_on_instances_preserves_ids (fun t => t) opEx 10 1 [("A", 0), ("B", 1)]
      heapEx).1 _ (allocOut 10 [("A", 0), ("B", 1)]) rfl
  · exact (run_on_instances_preserves_ids (fun t => t) opEx 10 1 [("A", 0), ("B", 1)]
      heapEx).2

/-- C1.  Failure isolation of `run_on_instances`: when no generator ever
raises `KeyboardInterrupt` and each workflow, run alone against the same
oracle, reaches a terminal outcome within the fuel, the batched call
returns normally with one entry per workflow, each workflow's final
context is exactly what its own solo run produces (so no failure affects
any sibling), and a workflow whose generator raised ends up with the
failure text under its `error` key.  A `KeyboardInterrupt` raised while
resuming a generator, by contrast, propagates: the call ends
`interrupted`, not with a per-workflow error. -/
theorem run_on_instances_isolates_failures :
    (∀ (oracle : Nat → Nat) (operation : Ctx → Gen) (fresh fuel : Nat)
       (instances : List (String × Nat)) (h : Heap),
      (∀ p ∈ instances, p.2 < fresh) →
      (∀ c s r, (operation c).step s r ≠ .interrupt) →
      (∀ p ∈ instances, ∃ c, (runSingle oracle (operation (h p.2)).step fuel
        (operation (h p.2)).start none (h p.2)).bind SingleOut.ctxOf = some c) →
      ∃ h', run_on_instances oracle operation fresh fuel instances h =
          some (.ok h' (allocOut fresh instances)) ∧
        (∀ i (hi : i < instances.length),
          (runSingle oracle (operation (h (instances.get ⟨i, hi⟩).2)).step fuel
            (operation (h (instances.get ⟨i, hi⟩).2)).start none
            (h (instances.get ⟨i, hi⟩).2)).bind SingleOut.ctxOf =
              some (h' (fresh + i)) ∧
          (∀ e c, runSingle oracle (operation (h (instances.get ⟨i, hi⟩).2)).step fuel
              (operation (h (instances.get ⟨i, hi⟩).2)).start none
              (h (instances.get ⟨i, hi⟩).2) = some (.failed e c) →
            assocGet "error" (h' (fresh + i)) = some e))) ∧
    (∀ (oracle : Nat → Nat) (g : Gen) (fresh fuel : Nat) (id : String) (a : Nat)
       (h : Heap),
      g.step g.start none = .interrupt →
      run_on_instances oracle (fun _ => g) fresh (fuel + 1) [(id, a)] h =
        some .interrupted) := by
  constructor
  · intro oracle operation fresh fuel instances h hlow hni hterm
    obtain ⟨ls, h0, heqinit, hlen, haddrs, hspec, hframe0⟩ :=
      initRun_spec operation instances fresh h hlow
    have hnodup : (ls.map Live.addr).Nodup := by
      rw [haddrs]
      exact addrSeq_nodup fresh instances.length
    have hterm' : ∀ l ∈ ls, ∃ c, (runSingle oracle l.gstep fuel l.st l.task
        (h0 l.addr)).bind SingleOut.ctxOf = some c := by
      intro l hl
      obtain ⟨⟨i, hil⟩, rfl⟩ := List.mem_iff_get.1 hl
      have hi : i < instances.length := by rw [← hlen]; exact hil
      obtain ⟨s1, s2, s3, s4, s5, s6⟩ := hspec i hi hil
      obtain ⟨c, hc⟩ := hterm _ (List.get_mem instances i hi)
      refine ⟨c, ?_⟩
      rw [s3, s4, s5, s2, s6]
      exact hc
    obtain ⟨h', heqloop, _, hvals⟩ := orchLoop_spec oracle fuel ls h0 hnodup hterm'
    have hrun : run_on_instances oracle operation fresh fuel instances h =
        some (.ok h' (allocOut fresh instances)) := by
      have h1 : run_on_instances oracle operation fresh fuel instances h =
          (match orchLoop oracle fuel ls h0 with
          | some (.finished h2) => some (RunResult.ok h2 (allocOut fresh instances))
          | some .interrupted => some RunResult.interrupted
          | none => none) := by
        unfold run_on_instances
        rw [heqinit]
      rw [h1, heqloop]
    refine ⟨h', hrun, ?_⟩
    intro i hi
    have hil : i < ls.length := by rw [hlen]; exact hi
    obtain ⟨s1, s2, s3, s4, s5, s6⟩ := hspec i hi hil
    have hv := hvals (ls.get ⟨i, hil⟩) (List.get_mem ls i hil)
    rw [s3, s4, s5, s2, s6] at hv
    constructor
    · exact hv
    · intro e c hfail
      rw [hfail] at hv
      have hc : c = h' (fresh + i) := by
        have : SingleOut.ctxOf (.failed e c) = some (h' (fresh + i)) := hv
        injection this
      obtain ⟨w, hw⟩ := runSingle_failed_ctx oracle _ fuel _ none _ e c hfail
      rw [← hc, hw]
      exact assocGet_assocSet "error" e w
  · intro oracle g fresh fuel id a h hint
    have h1 : run_on_instances oracle (fun _ => g) fresh (fuel + 1) [(id, a)] h =
        (match orchLoop oracle (fuel + 1)
            [{ id := id, gstep := g.step, st := g.start, task := none, addr := fresh }]
            (heapSet h fresh (h a)) with
        | some (.finished h2) => some (RunResult.ok h2 (allocOut fresh [(id, a)]))
        | some .interrupted => some RunResult.interrupted
        | none => none) := rfl
    have h2 : orchLoop oracle (fuel + 1)
        [{ id := id, gstep := g.step, st := g.start, task := none, addr := fresh }]
        (heapSet h fresh (h a)) = some .interrupted := by
      have h3 : resumeAll
          [{ id := id, gstep := g.step, st := g.start, task := none, addr := fresh }]
          (heapSet h fresh (h a)) = .interrupted := by
        unfold resumeAll
        simp only [hint]
      unfold orchLoop
      rw [if_neg (fun hc => (Bool.noConfusion hc : False))]
      rw [show refreshTasks oracle
          [{ id := id, gstep := g.step, st := g.start, task := none, addr := fresh }] =
          [{ id := id, gstep := g.step, st := g.start, task := none, addr := fresh }] from rfl]
      rw [h3]
    rw [h1, h2]

theorem run_on_instances_isolates_failures_witness :
    ∃ h', run_on_instances (fun t => t) opEx 10 1 [("A", 0), ("B", 1)] heapEx =
        some (.ok h' (allocOut 10 [("A", 0), ("B", 1)])) ∧
      assocGet "error" (h' 11) = some "ValueError: kaboom" ∧
      run_on_instances (fun t => t) (fun _ => genKI) 10 1 [("A", 0)] heapEx =
        some .interrupted := by
  have hmain := (run_on_instances_isolates_failures).1 (fun t => t) opEx 10 1
    [("A", 0), ("B", 1)] heapEx (by decide)
    (by
      intro c s r
      unfold opEx
      split
      · intro hc; cases hc
      · intro hc; cases hc)
    (by
      intro p hp
      rcases List.mem_cons.1 hp with rfl | hp2
      · exact ⟨_, rfl⟩
      · rcases List.mem_cons.1 hp2 with rfl | hp3
        · exact ⟨_, rfl⟩
        · cases hp3)
  obtain ⟨h', hrun, hspec⟩ := hmain
  refine ⟨h', hrun, ?_, ?_⟩
  · exact (hspec 1 (by decide)).2 "ValueError: kaboom" _ rfl
  · exact (run_on_instances_isolates_failures).2 (fun t => t) genKI 10 0 "A" 0
      heapEx rfl

end PyVsphere
